import Mathlib

/-!
# gemm_x8s8s32x inner product: configuration layer and post-processing routine

A shallow embedding of `src/cpu/gemm_x8s8s32x_inner_product.hpp`:

* `pd_t::set_default_params`, `pd_t::init_scratchpad` and `pd_t::init` are
  translated statement by statement.  The primitive descriptor is an explicit
  state record; the methods return the status together with the state they
  leave behind.  A call that runs into a failing `assert` has the result
  `result_t.assert_failed`.
* Helpers of the library that the header only calls (`set_format`, `ndims()`,
  `with_bias()`, `MB()`, `OC()`, `has_zero_dim_memory()`,
  `dense_gemm_consitency_check`) are fields of the environment record `env_t`.
* `pp_kernel_t` is only declared in the header; its call operator and the
  routine it runs are modelled from the specification (sections 3 and 4.2),
  with the arithmetic of the routine kept abstract.
* `post_ops_t::entry_t::is_relu` is modelled from the specification
  (section 4.1).
-/

namespace mkldnn

/-! ## Types of the library used by the header -/

/-- Status codes (`status_t`). -/
inductive status_t
  | success
  | out_of_memory
  | try_again
  | invalid_arguments
  | not_ready
  | unimplemented
  | iterator_ends
  | runtime_error
  | not_required
  deriving DecidableEq, Repr

/-- Element types (`data_type_t`). -/
inductive data_type_t
  | undef
  | f32
  | s32
  | s16
  | s8
  | u8
  deriving DecidableEq, Repr

/-- Memory format tags (`memory_format_t`): the tags the header names, and
`other` for every remaining tag of the library. -/
inductive memory_format_t
  | undef
  | any
  | blocked
  | x
  | nc
  | nwc
  | nhwc
  | ndhwc
  | io
  | wio
  | hwio
  | dhwio
  | other (tag : Nat)
  deriving DecidableEq, Repr

/-- Propagation kinds (`prop_kind_t`). -/
inductive prop_kind_t
  | undef
  | forward_training
  | forward_inference
  | backward
  | backward_data
  | backward_weights
  | backward_bias
  deriving DecidableEq, Repr

/-- Engine kinds (`engine_kind_t`). -/
inductive engine_kind_t
  | any_engine
  | cpu
  deriving DecidableEq, Repr

/-- Kinds of a post-op entry (`primitive_kind_t`, the part post-ops use). -/
inductive primitive_kind_t
  | undefined
  | sum
  | eltwise
  deriving DecidableEq, Repr

/-- Element-wise algorithms (`alg_kind_t`, the element-wise part). -/
inductive alg_kind_t
  | undef
  | eltwise_relu
  | eltwise_tanh
  | eltwise_elu
  | eltwise_square
  | eltwise_abs
  | eltwise_sqrt
  | eltwise_linear
  | eltwise_bounded_relu
  | eltwise_soft_relu
  | eltwise_logistic
  deriving DecidableEq, Repr

/-- Parameters of an element-wise post-op.  The `float` members are carried as
rationals: the configuration layer only compares them with constants. -/
structure eltwise_params_t where
  alg : alg_kind_t
  scale : Rat
  alpha : Rat
  beta : Rat
  deriving DecidableEq, Repr

/-- One entry of the post-op list (`post_ops_t::entry_t`). -/
structure entry_t where
  kind : primitive_kind_t
  eltwise : eltwise_params_t
  deriving DecidableEq, Repr

/-- The post-op list of the attributes (`post_ops_t`): `entry_` holds the
entries in use, `len_` is their number. -/
structure post_ops_t where
  entry_ : List entry_t
  deriving DecidableEq, Repr

/-- The member `len_` of `post_ops_t`. -/
def post_ops_t.len_ (p : post_ops_t) : Int := p.entry_.length

/-- The content of an array slot that holds no post-op. -/
def entry_t.unused : entry_t :=
  { kind := .undefined, eltwise := { alg := .undef, scale := 0, alpha := 0, beta := 0 } }

/-- The slot `entry_[0]` of the post-op array. -/
def post_ops_t.entry_0 (p : post_ops_t) : entry_t := p.entry_.headD entry_t.unused

/-- Primitive attributes (`primitive_attr_t`), the part `init` reads. -/
structure primitive_attr_t where
  post_ops_ : post_ops_t
  deriving DecidableEq, Repr

/-- A memory descriptor (`memory_desc_t`).  `layout` stands for the blocking
data that goes with the format tag. -/
structure memory_desc_t where
  ndims : Int
  dims : List Int
  data_type : data_type_t
  format : memory_format_t
  layout : List Int
  deriving DecidableEq, Repr

/-- A memory primitive descriptor (`cpu_memory_t::pd_t`); `desc()` returns
`desc_`. -/
structure memory_pd_t where
  desc_ : memory_desc_t
  deriving DecidableEq, Repr

/-- The operation descriptor (`inner_product_desc_t`), returned by `desc()`.
It is `const` for `init`. -/
structure inner_product_desc_t where
  prop_kind : prop_kind_t
  src_desc : memory_desc_t
  weights_desc : memory_desc_t
  bias_desc : memory_desc_t
  dst_desc : memory_desc_t
  deriving DecidableEq, Repr

/-- Keys of the scratchpad registry (`memory_tracking::names`). -/
inductive key_t
  | key_iprod_int_dat_in_acc_dt
  | key_other (tag : Nat)
  deriving DecidableEq, Repr

/-- The scratchpad registry, as the sequence of bookings made so far: each
booking is a key and a size in bytes. -/
abbrev registry_t := List (key_t × Nat)

/-- The call `scratchpad.book(key, size)` on a registrar of the registry. -/
def book (r : registry_t) (key : key_t) (size : Nat) : registry_t := r ++ [(key, size)]

/-- The state of `gemm_x8s8s32x_inner_product_fwd_t::pd_t`: the members of the
base classes that `init` reads or writes, and `dst_is_acc_`. -/
structure pd_t where
  engine_kind : engine_kind_t
  desc_ : inner_product_desc_t
  attr_ : primitive_attr_t
  src_pd_ : memory_pd_t
  weights_pd_ : memory_pd_t
  bias_pd_ : memory_pd_t
  dst_pd_ : memory_pd_t
  dst_is_acc_ : Bool
  scratchpad_registry_ : registry_t
  deriving DecidableEq, Repr

/-- What a call does: it returns a value, or it stops at a failing `assert`. -/
inductive result_t (α : Type)
  | returned (a : α)
  | assert_failed
  deriving DecidableEq, Repr

/-- The parts of the library and of the build that the header depends on and
does not define.
* `ndebug`: the build defines `NDEBUG`, so `assert` expands to nothing.
* `set_format`: the method `set_format` of a memory primitive descriptor; it
  returns a status and leaves the descriptor in some state.
* `ndims`, `with_bias`, `MB`, `OC`: accessors of the base class; they read the
  operation descriptor.
* `has_zero_dim_memory`: accessor of the base class.
* `dense_gemm_consitency_check`: the layout check on the three memory
  primitive descriptors. -/
structure env_t where
  ndebug : Bool
  set_format : memory_pd_t → memory_format_t → status_t × memory_pd_t
  ndims : inner_product_desc_t → Int
  with_bias : inner_product_desc_t → Bool
  MB : inner_product_desc_t → Int
  OC : inner_product_desc_t → Int
  has_zero_dim_memory : pd_t → Bool
  dense_gemm_consitency_check : memory_pd_t → memory_pd_t → memory_pd_t → Bool

/-! ## Utilities of the library -/

/-- The helper `utils::one_of(v, a, b, ...)`. -/
def one_of {α : Type} [DecidableEq α] (v : α) (opts : List α) : Bool := decide (v ∈ opts)

/-- The helper `IMPLICATION(cause, effect)`, that is `!cause || effect`. -/
def IMPLICATION (cause effect : Bool) : Bool := !cause || effect

/-- Modelled from the spec: the method `post_ops_t::entry_t::is_relu` is
missing, the header only calls it.  Section 4.1 of the specification says of
the accepted post-op that it "is the rectified-linear activation with zero
negative-axis intercept".  The header passes the two flags `(true, false)`;
the specification does not say what they stand for, and the model does not
read them. -/
def entry_t.is_relu (e : entry_t) (_flag0 _flag1 : Bool) : Bool :=
  decide (e.kind = .eltwise) && decide (e.eltwise.alg = .eltwise_relu)
    && decide (e.eltwise.alpha = 0)

/-- Conversion of an integer value to `size_t` (64 bits). -/
def to_size_t (v : Int) : Nat := (v % 2 ^ 64).toNat

/-- Multiplication in `size_t`. -/
def size_t_mul (a b : Nat) : Nat := (a * b) % 2 ^ 64

/-- The value `sizeof(acc_data_t)`: `acc_data_t` is
`prec_traits<data_type::s32>::type`, a 32-bit integer. -/
def sizeof_acc_data_t : Nat := 4

/-! ## `pd_t::set_default_params` -/

/-- Control flow inside `set_default_params`: go on with the next statement,
return a status, or stop at a failing `assert`. -/
inductive flow_t
  | next (s : pd_t)
  | ret (st : status_t) (s : pd_t)
  | stop
  deriving DecidableEq, Repr

/-- Sequencing of statements. -/
def flow_t.andThen (f : flow_t) (k : pd_t → flow_t) : flow_t :=
  match f with
  | .next s => k s
  | .ret st s => .ret st s
  | .stop => .stop

/-- The macro `CHECK(f)`: `return` the status of `f` unless it is `success`.
Here `f` has run already: `st` is its status and `s` the state it left. -/
def CHECK (st : status_t) (s : pd_t) : flow_t :=
  if st ≠ .success then .ret st s else .next s

/-- The statement `CHECK(this->src_pd_.set_format(fmt))`. -/
def check_set_src (env : env_t) (s : pd_t) (fmt : memory_format_t) : flow_t :=
  let r := env.set_format s.src_pd_ fmt
  CHECK r.1 { s with src_pd_ := r.2 }

/-- The statement `CHECK(this->dst_pd_.set_format(fmt))`. -/
def check_set_dst (env : env_t) (s : pd_t) (fmt : memory_format_t) : flow_t :=
  let r := env.set_format s.dst_pd_ fmt
  CHECK r.1 { s with dst_pd_ := r.2 }

/-- The statement `CHECK(this->weights_pd_.set_format(fmt))`. -/
def check_set_weights (env : env_t) (s : pd_t) (fmt : memory_format_t) : flow_t :=
  let r := env.set_format s.weights_pd_ fmt
  CHECK r.1 { s with weights_pd_ := r.2 }

/-- The statement `CHECK(this->bias_pd_.set_format(fmt))`. -/
def check_set_bias (env : env_t) (s : pd_t) (fmt : memory_format_t) : flow_t :=
  let r := env.set_format s.bias_pd_ fmt
  CHECK r.1 { s with bias_pd_ := r.2 }

/-- The statement `default: assert(!"unsupported ndims format");`: the
condition is the constant `false`. -/
def assert_unsupported_ndims (env : env_t) (s : pd_t) : flow_t :=
  if env.ndebug then .next s else .stop

/-- Lines 86-95: the default layout of the source. -/
def default_src (env : env_t) (s : pd_t) : flow_t :=
  if s.src_pd_.desc_.format = .any then
    let n := env.ndims s.desc_
    if n = 0 ∨ n = 2 then check_set_src env s .nc
    else if n = 3 then check_set_src env s .nwc
    else if n = 4 then check_set_src env s .nhwc
    else if n = 5 then check_set_src env s .ndhwc
    else assert_unsupported_ndims env s
  else .next s

/-- Lines 96-97: the default layout of the destination. -/
def default_dst (env : env_t) (s : pd_t) : flow_t :=
  if s.dst_pd_.desc_.format = .any then check_set_dst env s .nc else .next s

/-- Lines 98-107: the default layout of the weights. -/
def default_weights (env : env_t) (s : pd_t) : flow_t :=
  if s.weights_pd_.desc_.format = .any then
    let n := env.ndims s.desc_
    if n = 0 ∨ n = 2 then check_set_weights env s .io
    else if n = 3 then check_set_weights env s .wio
    else if n = 4 then check_set_weights env s .hwio
    else if n = 5 then check_set_weights env s .dhwio
    else assert_unsupported_ndims env s
  else .next s

/-- Lines 108-109: the default layout of the bias. -/
def default_bias (env : env_t) (s : pd_t) : flow_t :=
  if s.bias_pd_.desc_.format = .any then check_set_bias env s .x else .next s

/-- The body of `pd_t::set_default_params` up to the final `return`. -/
def set_default_params_flow (env : env_t) (s : pd_t) : flow_t :=
  ((((default_src env s).andThen (default_dst env)).andThen (default_weights env)).andThen
    (default_bias env))

/-- The method `pd_t::set_default_params` (lines 83-112). -/
def set_default_params (env : env_t) (s : pd_t) : result_t (status_t × pd_t) :=
  match set_default_params_flow env s with
  | .next s1 => .returned (.success, s1)
  | .ret st s1 => .returned (st, s1)
  | .stop => .assert_failed

/-! ## `pd_t::init_scratchpad` and `pd_t::init` -/

/-- The method `pd_t::init_scratchpad` (lines 115-122). -/
def init_scratchpad (env : env_t) (s : pd_t) : pd_t :=
  if s.dst_is_acc_ = false then
    let scratchpad := book s.scratchpad_registry_ key_t.key_iprod_int_dat_in_acc_dt
      (size_t_mul (size_t_mul sizeof_acc_data_t (to_size_t (env.MB s.desc_)))
        (to_size_t (env.OC s.desc_)))
    { s with scratchpad_registry_ := scratchpad }
  else s

/-- The conjuncts of `ok` in `init` after `set_default_params() == success`
(lines 57-70), read in the state `s` that `set_default_params` left. -/
def init_checks (env : env_t) (src_type dst_type : data_type_t) (s : pd_t) : Bool :=
  one_of s.desc_.prop_kind [.forward_training, .forward_inference]
    && !env.has_zero_dim_memory s
    && decide (s.desc_.src_desc.data_type = src_type)
    && decide (s.desc_.dst_desc.data_type = dst_type)
    && decide (s.desc_.weights_desc.data_type = .s8)
    && IMPLICATION (env.with_bias s.desc_)
        (one_of s.desc_.bias_desc.data_type [.f32, .s32, .s8, .u8])
    && decide (s.attr_.post_ops_.len_ ≤ 1)
    && IMPLICATION (decide (s.attr_.post_ops_.len_ ≠ 0))
        (s.attr_.post_ops_.entry_0.is_relu true false)
    && env.dense_gemm_consitency_check s.src_pd_ s.weights_pd_ s.dst_pd_

/-- The method `pd_t::init` (lines 49-78) of the instantiation
`gemm_x8s8s32x_inner_product_fwd_t<src_type, dst_type>`. -/
def init (env : env_t) (src_type dst_type : data_type_t) (s : pd_t) :
    result_t (status_t × pd_t) :=
  if env.ndebug = false ∧ s.engine_kind ≠ .cpu then .assert_failed
  else
    match set_default_params env s with
    | .assert_failed => .assert_failed
    | .returned (st, s1) =>
      let ok := decide (st = .success) && init_checks env src_type dst_type s1
      if !ok then .returned (.unimplemented, s1)
      else
        let s2 := { s1 with dst_is_acc_ := one_of dst_type [.s32, .f32] }
        .returned (.success, init_scratchpad env s2)

/-! ## The post-processing routine `pp_kernel_t` -/

/-- Rounding modes (`round_mode_t`). -/
inductive round_mode_t
  | nearest
  | down
  deriving DecidableEq, Repr

/-- The arithmetic of the generated code, kept abstract: `F` is the type the
routine computes in, `D` the element type of the destination, `B` an encoded
bias element.
* `of_acc`: an accumulator value as an `F`;
* `decode_bias`: an encoded bias element, of the given data type, as an `F`;
* `add`, `mul`: addition and multiplication in `F`;
* `is_negative`, `zero`: the comparison and the constant of the activation;
* `convert`: narrowing to the destination type under a rounding mode. -/
structure arith_t (F D B : Type) where
  of_acc : Int → F
  decode_bias : data_type_t → B → F
  add : F → F → F
  mul : F → F → F
  is_negative : F → Bool
  zero : F
  convert : round_mode_t → F → D

/-- The data members of `pp_kernel_t` (lines 170-176). -/
structure pp_kernel_t where
  OC_ : Nat
  bias_data_type_ : data_type_t
  bias_data_type_size_ : Nat
  scale_idx_mult_ : Nat
  rmode_ : round_mode_t
  do_bias_ : Bool
  do_relu_ : Bool
  deriving DecidableEq, Repr

/-- The accumulator argument of the routine: a buffer of its own, or the
destination buffer itself (the routine is built with the flag `dst_is_acc`),
whose elements are then read as accumulator values through `as_acc`. -/
inductive acc_arg_t (D : Type)
  | own (data : Nat → Int)
  | dst_itself (as_acc : D → Int)

/-- The accumulator value at index `j` when the destination buffer is `dst`. -/
def acc_arg_t.read {D : Type} (acc : acc_arg_t D) (dst : Nat → D) (j : Nat) : Int :=
  match acc with
  | .own data => data j
  | .dst_itself as_acc => as_acc (dst j)

/-- The argument record `ker_args` (lines 159-167).  A buffer is a function
from indices to elements; `dst` and `acc` are the indices at which the
sub-range starts in the destination and in the accumulator. -/
structure ker_args (F B : Type) where
  dst : Nat
  acc : Nat
  bias : Nat → B
  scales : Nat → F
  nslope : F
  len : Nat
  oc_offset : Nat

/-- Modelled from the spec: the code that `pp_kernel_t::generate` emits is
missing, the header only declares the method.  Steps 1-5 of section 4.2 on
one element: the accumulator value `a` of an element of
output channel `c`; add the decoded bias of channel `c` if bias is present;
multiply by the scale of channel `c`, at index `c * scale_idx_mult_` (the
multiplier is 0 for the shared scale and 1 for per-channel scales); with the
activation, "negative results become zero"; convert to the destination
type. -/
def pp_kernel_t.element {F D B : Type} (k : pp_kernel_t) (ops : arith_t F D B)
    (args : ker_args F B) (a : Int) (c : Nat) : D :=
  let v0 := ops.of_acc a
  let v1 := if k.do_bias_ then ops.add v0 (ops.decode_bias k.bias_data_type_ (args.bias c))
    else v0
  let v2 := ops.mul v1 (args.scales (c * k.scale_idx_mult_))
  let v3 := if k.do_relu_ then (if ops.is_negative v2 then ops.zero else v2) else v2
  ops.convert k.rmode_ v3

/-- Modelled from the spec: the loop of the generated routine `ker_` is
missing (section 4.2 describes it); `n` more elements from element `i` of the sub-range on: element `i` has
output channel `(oc_offset + i) mod OC`, its accumulator value is read at
`acc[i]` and the result is stored in `dst[i]` (step 6). -/
def pp_kernel_t.ker_from {F D B : Type} (k : pp_kernel_t) (ops : arith_t F D B)
    (acc : acc_arg_t D) (args : ker_args F B) : Nat → Nat → (Nat → D) → (Nat → D)
  | 0, _, mem => mem
  | n + 1, i, mem =>
    pp_kernel_t.ker_from k ops acc args n (i + 1)
      (Function.update mem (args.dst + i)
        (k.element ops args (acc.read mem (args.acc + i)) ((args.oc_offset + i) % k.OC_)))

/-- Modelled from the spec: the generated routine `ker_` is missing; by
section 4.2 it runs "for each index `i` in `[0, args.len)`". -/
def pp_kernel_t.ker {F D B : Type} (k : pp_kernel_t) (ops : arith_t F D B)
    (acc : acc_arg_t D) (args : ker_args F B) (mem : Nat → D) : Nat → D :=
  k.ker_from ops acc args args.len 0 mem

/-- Modelled from the spec: the body of `pp_kernel_t::operator()` is missing,
the header only declares it.  By section 3 the routine gets "pointer to output sub-range,
pointer to accumulator sub-range, pointer to bias data, pointer to scale data,
activation slope, element count to process, and a channel-offset used to index
per-channel scales/bias when the sub-range does not start at channel 0"; the
buffers are row-major `[MB, OC]`, so the sub-range that starts at `start`
starts at channel `start mod OC`. -/
def pp_kernel_t.call {F D B : Type} (k : pp_kernel_t) (ops : arith_t F D B)
    (dst : Nat → D) (acc : acc_arg_t D) (bias : Nat → B) (scales : Nat → F) (nslope : F)
    (start end_ : Nat) : Nat → D :=
  k.ker ops acc
    { dst := start, acc := start, bias := bias, scales := scales, nslope := nslope,
      len := end_ - start, oc_offset := start % k.OC_ } dst

/-- One invocation of the routine per chunk `(start, end)`, in the order of
the list. -/
def pp_kernel_t.call_chunks {F D B : Type} (k : pp_kernel_t) (ops : arith_t F D B)
    (acc : acc_arg_t D) (bias : Nat → B) (scales : Nat → F) (nslope : F)
    (chunks : List (Nat × Nat)) (dst : Nat → D) : Nat → D :=
  chunks.foldl (fun mem c => k.call ops mem acc bias scales nslope c.1 c.2) dst

/-- The value the routine stores at index `j`, as a function of the
destination buffer it starts from: the element of output channel
`j mod OC`. -/
def pp_kernel_t.stored {F D B : Type} (k : pp_kernel_t) (ops : arith_t F D B)
    (acc : acc_arg_t D) (bias : Nat → B) (scales : Nat → F) (nslope : F)
    (dst : Nat → D) (j : Nat) : D :=
  k.element ops
    { dst := 0, acc := 0, bias := bias, scales := scales, nslope := nslope, len := 0,
      oc_offset := 0 }
    (acc.read dst j) (j % k.OC_)

/-! ## Conditions on the input and auxiliary predicates -/

/-- The ranks the two `switch` statements of `set_default_params` have a
`case` for. -/
def handled_ndims (n : Int) : Prop := n = 0 ∨ n = 2 ∨ n = 3 ∨ n = 4 ∨ n = 5

instance (n : Int) : Decidable (handled_ndims n) := by
  unfold handled_ndims; infer_instance

/-- No `assert` of `init` or `set_default_params` can fail: the build defines
`NDEBUG`, or the engine is a CPU engine and the rank has a `case` or neither
`switch` is entered. -/
def asserts_hold (env : env_t) (s : pd_t) : Prop :=
  env.ndebug = true ∨
    (s.engine_kind = .cpu ∧
      (handled_ndims (env.ndims s.desc_) ∨
        (s.src_pd_.desc_.format ≠ .any ∧ s.weights_pd_.desc_.format ≠ .any)))

instance (env : env_t) (s : pd_t) : Decidable (asserts_hold env s) := by
  unfold asserts_hold; infer_instance

/-- A successful `set_format` has stored the requested tag. -/
def set_format_stores (env : env_t) : Prop :=
  ∀ m fmt, (env.set_format m fmt).1 = .success → (env.set_format m fmt).2.desc_.format = fmt

/-- What `set_default_params` leaves alone: everything but the four memory
primitive descriptors, and each of those whose format is not `any`. -/
def frame (s s1 : pd_t) : Prop :=
  s1.engine_kind = s.engine_kind ∧ s1.desc_ = s.desc_ ∧ s1.attr_ = s.attr_ ∧
  s1.dst_is_acc_ = s.dst_is_acc_ ∧ s1.scratchpad_registry_ = s.scratchpad_registry_ ∧
  (s.src_pd_.desc_.format ≠ .any → s1.src_pd_ = s.src_pd_) ∧
  (s.dst_pd_.desc_.format ≠ .any → s1.dst_pd_ = s.dst_pd_) ∧
  (s.weights_pd_.desc_.format ≠ .any → s1.weights_pd_ = s.weights_pd_) ∧
  (s.bias_pd_.desc_.format ≠ .any → s1.bias_pd_ = s.bias_pd_)

/-- The channel-last layout of the source the specification names for a rank
in 2..5: `nc`, `nwc`, `nhwc`, `ndhwc`. -/
def spec_src_layout (r : Int) : memory_format_t :=
  if r = 2 then .nc else if r = 3 then .nwc else if r = 4 then .nhwc else .ndhwc

/-- The layout of the weights the specification names for a rank in 2..5:
`io`, `wio`, `hwio`, `dhwio`. -/
def spec_weights_layout (r : Int) : memory_format_t :=
  if r = 2 then .io else if r = 3 then .wio else if r = 4 then .hwio else .dhwio

/-- A property of the state a flow carries, if it carries one. -/
def flow_t.holds (P : pd_t → Prop) : flow_t → Prop
  | .next s1 => P s1
  | .ret _ s1 => P s1
  | .stop => True

/-- A flow that returns does so with a status other than `success`. -/
def flow_t.ret_fails : flow_t → Prop
  | .ret st _ => st ≠ .success
  | _ => True

/-- The flow did not stop at an `assert`. -/
def flow_t.runs : flow_t → Prop
  | .stop => False
  | _ => True

/-- The flow did not reach the next statement. -/
def flow_t.not_next : flow_t → Prop
  | .next _ => False
  | _ => True

/-- No statement of `set_default_params` has anything left to do: a format is
`any` only where the `switch` has no `case` for the rank and `assert` expands
to nothing. -/
def settled (env : env_t) (s : pd_t) : Prop :=
  (s.src_pd_.desc_.format = .any → env.ndebug = true ∧ ¬ handled_ndims (env.ndims s.desc_)) ∧
  s.dst_pd_.desc_.format ≠ .any ∧
  (s.weights_pd_.desc_.format = .any →
    env.ndebug = true ∧ ¬ handled_ndims (env.ndims s.desc_)) ∧
  s.bias_pd_.desc_.format ≠ .any

/-- A property of the state with which a flow reaches the next statement. -/
def flow_t.next_holds (P : pd_t → Prop) : flow_t → Prop
  | .next s1 => P s1
  | _ => True

/-- The index `j` lies in the chunk `[c.1, c.2)`. -/
def in_chunk (c : Nat × Nat) (j : Nat) : Prop := c.1 ≤ j ∧ j < c.2

instance (c : Nat × Nat) (j : Nat) : Decidable (in_chunk c j) := by
  unfold in_chunk; infer_instance

/-- Two chunks have no index in common. -/
def chunks_disjoint (c d : Nat × Nat) : Prop :=
  c.2 ≤ c.1 ∨ d.2 ≤ d.1 ∨ c.2 ≤ d.1 ∨ d.2 ≤ c.1

instance (c d : Nat × Nat) : Decidable (chunks_disjoint c d) := by
  unfold chunks_disjoint; infer_instance

/-- The chunks form a partition of `[0, n)` into contiguous chunks: each is a
range `[start, end)` inside `[0, n)`, no two of them overlap, and every index
below `n` lies in one of them. -/
def is_partition (n : Nat) (chunks : List (Nat × Nat)) : Prop :=
  (∀ c ∈ chunks, c.1 ≤ c.2 ∧ c.2 ≤ n) ∧
  chunks.Pairwise chunks_disjoint ∧
  (∀ j < n, ∃ c ∈ chunks, in_chunk c j)

instance (n : Nat) (chunks : List (Nat × Nat)) : Decidable (is_partition n chunks) := by
  unfold is_partition; infer_instance

/-! ## Sample inputs -/

/-- A sample `set_format`: it stores the tag and reports success. -/
def sample_set_format (m : memory_pd_t) (fmt : memory_format_t) : status_t × memory_pd_t :=
  (.success, { desc_ := { m.desc_ with format := fmt } })

/-- A sample environment: the rank is that of the source descriptor, the bias
is present when its descriptor has a rank, `MB` and `OC` are the first
dimension of the source and the second of the destination, there is no
zero-sized dimension and the layout check passes. -/
def sample_env (ndebug : Bool) : env_t :=
  { ndebug := ndebug
    set_format := sample_set_format
    ndims := fun d => d.src_desc.ndims
    with_bias := fun d => decide (d.bias_desc.ndims ≠ 0)
    MB := fun d => d.src_desc.dims.headD 0
    OC := fun d => d.dst_desc.dims.getD 1 0
    has_zero_dim_memory := fun _ => false
    dense_gemm_consitency_check := fun _ _ _ => true }

/-- A memory descriptor without layout data. -/
def sample_md (dims : List Int) (dt : data_type_t) (fmt : memory_format_t) : memory_desc_t :=
  { ndims := dims.length, dims := dims, data_type := dt, format := fmt, layout := [] }

/-- The ReLU post-op with negative slope zero. -/
def sample_relu : entry_t :=
  { kind := .eltwise, eltwise := { alg := .eltwise_relu, scale := 1, alpha := 0, beta := 0 } }

/-- A sample primitive descriptor before `init`: forward inference on a CPU
engine, source `src`, weights `wei`, no bias, destination `dst`, post-ops
`po`; the memory primitive descriptors start as copies of the descriptors. -/
def sample_pd (src wei dst : memory_desc_t) (po : List entry_t) : pd_t :=
  { engine_kind := .cpu
    desc_ := { prop_kind := .forward_inference, src_desc := src, weights_desc := wei,
               bias_desc := sample_md [] .undef .undef, dst_desc := dst }
    attr_ := { post_ops_ := { entry_ := po } }
    src_pd_ := { desc_ := src }
    weights_pd_ := { desc_ := wei }
    bias_pd_ := { desc_ := sample_md [] .undef .undef }
    dst_pd_ := { desc_ := dst }
    dst_is_acc_ := false
    scratchpad_registry_ := [] }

/-- A 2-D problem with `MB = 2`, `IC = 3`, `OC = 4`, `u8` source and
destination of type `dt`, all layouts left to the implementation. -/
def sample_pd_2d (dt : data_type_t) (po : List entry_t) : pd_t :=
  sample_pd (sample_md [2, 3] .u8 .any) (sample_md [4, 3] .s8 .any) (sample_md [2, 4] dt .any) po

/-- The state `init` leaves on the 2-D sample problem: layouts `nc`, `io`,
`nc`, the flag `acc` and the registry `reg`. -/
def sample_pd_2d_done (dt : data_type_t) (po : List entry_t) (acc : Bool) (reg : registry_t) :
    pd_t :=
  { sample_pd_2d dt po with
    src_pd_ := { desc_ := sample_md [2, 3] .u8 .nc }
    weights_pd_ := { desc_ := sample_md [4, 3] .s8 .io }
    dst_pd_ := { desc_ := sample_md [2, 4] dt .nc }
    dst_is_acc_ := acc
    scratchpad_registry_ := reg }

/-- A descriptor of rank 0, all layouts left to the implementation. -/
def sample_pd_0d : pd_t :=
  sample_pd (sample_md [] .u8 .any) (sample_md [] .s8 .any) (sample_md [] .u8 .any) []

/-- A descriptor of rank 6, all layouts left to the implementation. -/
def sample_pd_6d : pd_t :=
  sample_pd (sample_md [2, 3, 1, 1, 1, 1] .u8 .any) (sample_md [4, 3, 1, 1, 1, 1] .s8 .any)
    (sample_md [2, 4] .u8 .any) []

/-- The rank-6 descriptor with the post-ops `po`. -/
def sample_pd_6d_post_ops (po : List entry_t) : pd_t :=
  sample_pd (sample_md [2, 3, 1, 1, 1, 1] .u8 .any) (sample_md [4, 3, 1, 1, 1, 1] .s8 .any)
    (sample_md [2, 4] .u8 .any) po

/-- The rank-6 descriptor with weights of type `f32`. -/
def sample_pd_6d_f32_weights : pd_t :=
  sample_pd (sample_md [2, 3, 1, 1, 1, 1] .u8 .any) (sample_md [4, 3, 1, 1, 1, 1] .f32 .any)
    (sample_md [2, 4] .u8 .any) []

/-- A hyperbolic-tangent post-op. -/
def sample_tanh : entry_t :=
  { kind := .eltwise, eltwise := { alg := .eltwise_tanh, scale := 1, alpha := 0, beta := 0 } }

/-- The 2-D sample problem, no bias, with the bias data type `s16` left in the
operation descriptor. -/
def sample_pd_2d_s16_bias : pd_t :=
  { sample_pd_2d .u8 [] with
    desc_ := { (sample_pd_2d .u8 []).desc_ with bias_desc := sample_md [] .s16 .undef } }

/-- The state `init` leaves on `sample_pd_2d_s16_bias`. -/
def sample_pd_2d_s16_bias_done : pd_t :=
  { sample_pd_2d_s16_bias with
    src_pd_ := { desc_ := sample_md [2, 3] .u8 .nc }
    weights_pd_ := { desc_ := sample_md [4, 3] .s8 .io }
    dst_pd_ := { desc_ := sample_md [2, 4] .u8 .nc }
    dst_is_acc_ := false
    scratchpad_registry_ := [(key_t.key_iprod_int_dat_in_acc_dt, 32)] }

/-- The 2-D sample problem with weights of type `f32`. -/
def sample_pd_f32_weights : pd_t :=
  sample_pd (sample_md [2, 3] .u8 .any) (sample_md [4, 3] .f32 .any) (sample_md [2, 4] .u8 .any) []

/-- The state the 2-D sample problem with `f32` weights is in after the default
layouts `nc`, `io`, `nc` have been stored. -/
def sample_pd_f32_weights_done : pd_t :=
  { sample_pd_f32_weights with
    src_pd_ := { desc_ := sample_md [2, 3] .u8 .nc }
    weights_pd_ := { desc_ := sample_md [4, 3] .f32 .io }
    dst_pd_ := { desc_ := sample_md [2, 4] .u8 .nc } }

/-- Sample arithmetic on integers: no rounding takes place. -/
def sample_arith : arith_t Int Int Int :=
  { of_acc := fun a => a
    decode_bias := fun _ b => b
    add := fun a b => a + b
    mul := fun a b => a * b
    is_negative := fun a => decide (a < 0)
    zero := 0
    convert := fun _ a => a }

/-- A sample routine for `OC = 3`: bias, per-channel scales and ReLU. -/
def sample_kernel : pp_kernel_t :=
  { OC_ := 3, bias_data_type_ := .s32, bias_data_type_size_ := 4, scale_idx_mult_ := 1,
    rmode_ := .nearest, do_bias_ := true, do_relu_ := true }

/-- The routine of the second example of the specification: `OC = 3`, no bias,
one shared scale, ReLU. -/
def sample_kernel_relu : pp_kernel_t :=
  { OC_ := 3, bias_data_type_ := .undef, bias_data_type_size_ := 0, scale_idx_mult_ := 0,
    rmode_ := .nearest, do_bias_ := false, do_relu_ := true }

/-- A sample accumulator for `MB = 2`, `OC = 3`. -/
def sample_acc : Nat → Int := fun j => [5, -3, 100, -7, 4, 0].getD j 0

/-! ## Lemmas on the statements of `set_default_params` -/

theorem frame_refl (s : pd_t) : frame s s := by
  simp [frame]

theorem frame_trans {s s1 s2 : pd_t} (h1 : frame s s1) (h2 : frame s1 s2) : frame s s2 := by
  obtain ⟨a1, a2, a3, a4, a5, a6, a7, a8, a9⟩ := h1
  obtain ⟨b1, b2, b3, b4, b5, b6, b7, b8, b9⟩ := h2
  refine ⟨by rw [b1, a1], by rw [b2, a2], by rw [b3, a3], by rw [b4, a4], by rw [b5, a5],
    ?_, ?_, ?_, ?_⟩
  · intro h
    have e := a6 h
    rw [b6 (by rw [e]; exact h), e]
  · intro h
    have e := a7 h
    rw [b7 (by rw [e]; exact h), e]
  · intro h
    have e := a8 h
    rw [b8 (by rw [e]; exact h), e]
  · intro h
    have e := a9 h
    rw [b9 (by rw [e]; exact h), e]

theorem CHECK_cases (st : status_t) (s : pd_t) :
    (st = .success ∧ CHECK st s = .next s) ∨ (st ≠ .success ∧ CHECK st s = .ret st s) := by
  by_cases h : st = .success
  · left; exact ⟨h, by simp [CHECK, h]⟩
  · right; exact ⟨h, by simp [CHECK, h]⟩

theorem CHECK_holds (P : pd_t → Prop) (st : status_t) (s : pd_t) (h : P s) :
    (CHECK st s).holds P := by
  rcases CHECK_cases st s with ⟨_, e⟩ | ⟨_, e⟩ <;> rw [e] <;> exact h

theorem CHECK_ret_fails (st : status_t) (s : pd_t) : (CHECK st s).ret_fails := by
  rcases CHECK_cases st s with ⟨_, e⟩ | ⟨h, e⟩ <;> rw [e]
  · trivial
  · exact h

theorem andThen_holds {P : pd_t → Prop} {f : flow_t} {k : pd_t → flow_t}
    (hf : f.holds P) (hk : ∀ s1, P s1 → (k s1).holds P) : (f.andThen k).holds P := by
  cases f with
  | next s1 => exact hk s1 hf
  | ret st s1 => exact hf
  | stop => trivial

theorem andThen_ret_fails {f : flow_t} {k : pd_t → flow_t}
    (hf : f.ret_fails) (hk : ∀ s1, (k s1).ret_fails) : (f.andThen k).ret_fails := by
  cases f with
  | next s1 => exact hk s1
  | ret st s1 => exact hf
  | stop => trivial

/-- The three ways the `switch` on the source can go. -/
theorem default_src_cases (env : env_t) (s : pd_t) :
    (s.src_pd_.desc_.format ≠ .any ∧ default_src env s = .next s) ∨
    (s.src_pd_.desc_.format = .any ∧ ¬ handled_ndims (env.ndims s.desc_) ∧
      default_src env s = assert_unsupported_ndims env s) ∨
    (s.src_pd_.desc_.format = .any ∧ handled_ndims (env.ndims s.desc_) ∧
      ∃ fmt, fmt ≠ .any ∧ default_src env s = check_set_src env s fmt) := by
  by_cases h : s.src_pd_.desc_.format = .any
  · right
    by_cases h02 : env.ndims s.desc_ = 0 ∨ env.ndims s.desc_ = 2
    · right
      refine ⟨h, ?_, .nc, by simp, by simp [default_src, h, h02]⟩
      rcases h02 with e | e <;> simp [handled_ndims, e]
    · by_cases h3 : env.ndims s.desc_ = 3
      · right
        exact ⟨h, by simp [handled_ndims, h3], .nwc, by simp, by simp [default_src, h, h3]⟩
      · by_cases h4 : env.ndims s.desc_ = 4
        · right
          exact ⟨h, by simp [handled_ndims, h4], .nhwc, by simp, by simp [default_src, h, h4]⟩
        · by_cases h5 : env.ndims s.desc_ = 5
          · right
            exact ⟨h, by simp [handled_ndims, h5], .ndhwc, by simp,
              by simp [default_src, h, h5]⟩
          · left
            refine ⟨h, ?_, by simp [default_src, h, h02, h3, h4, h5]⟩
            simp only [handled_ndims]
            push_neg at h02
            tauto
  · left
    exact ⟨h, by simp [default_src, h]⟩

/-- The three ways the `switch` on the weights can go. -/
theorem default_weights_cases (env : env_t) (s : pd_t) :
    (s.weights_pd_.desc_.format ≠ .any ∧ default_weights env s = .next s) ∨
    (s.weights_pd_.desc_.format = .any ∧ ¬ handled_ndims (env.ndims s.desc_) ∧
      default_weights env s = assert_unsupported_ndims env s) ∨
    (s.weights_pd_.desc_.format = .any ∧ handled_ndims (env.ndims s.desc_) ∧
      ∃ fmt, fmt ≠ .any ∧ default_weights env s = check_set_weights env s fmt) := by
  by_cases h : s.weights_pd_.desc_.format = .any
  · right
    by_cases h02 : env.ndims s.desc_ = 0 ∨ env.ndims s.desc_ = 2
    · right
      refine ⟨h, ?_, .io, by simp, by simp [default_weights, h, h02]⟩
      rcases h02 with e | e <;> simp [handled_ndims, e]
    · by_cases h3 : env.ndims s.desc_ = 3
      · right
        exact ⟨h, by simp [handled_ndims, h3], .wio, by simp, by simp [default_weights, h, h3]⟩
      · by_cases h4 : env.ndims s.desc_ = 4
        · right
          exact ⟨h, by simp [handled_ndims, h4], .hwio, by simp,
            by simp [default_weights, h, h4]⟩
        · by_cases h5 : env.ndims s.desc_ = 5
          · right
            exact ⟨h, by simp [handled_ndims, h5], .dhwio, by simp,
              by simp [default_weights, h, h5]⟩
          · left
            refine ⟨h, ?_, by simp [default_weights, h, h02, h3, h4, h5]⟩
            simp only [handled_ndims]
            push_neg at h02
            tauto
  · left
    exact ⟨h, by simp [default_weights, h]⟩

theorem assert_unsupported_ndims_holds (P : pd_t → Prop) (env : env_t) (s : pd_t) (h : P s) :
    (assert_unsupported_ndims env s).holds P := by
  unfold assert_unsupported_ndims
  split
  · exact h
  · trivial

theorem assert_unsupported_ndims_ret_fails (env : env_t) (s : pd_t) :
    (assert_unsupported_ndims env s).ret_fails := by
  unfold assert_unsupported_ndims
  split <;> trivial

theorem default_src_frame (env : env_t) (s : pd_t) : (default_src env s).holds (frame s) := by
  rcases default_src_cases env s with ⟨_, e⟩ | ⟨_, _, e⟩ | ⟨h, _, fmt, _, e⟩ <;> rw [e]
  · exact frame_refl s
  · exact assert_unsupported_ndims_holds _ env s (frame_refl s)
  · exact CHECK_holds _ _ _ (by simp [frame, h])

theorem default_dst_frame (env : env_t) (s : pd_t) : (default_dst env s).holds (frame s) := by
  unfold default_dst
  split
  · next h => exact CHECK_holds _ _ _ (by simp [frame, h])
  · exact frame_refl s

theorem default_weights_frame (env : env_t) (s : pd_t) :
    (default_weights env s).holds (frame s) := by
  rcases default_weights_cases env s with ⟨_, e⟩ | ⟨_, _, e⟩ | ⟨h, _, fmt, _, e⟩ <;> rw [e]
  · exact frame_refl s
  · exact assert_unsupported_ndims_holds _ env s (frame_refl s)
  · exact CHECK_holds _ _ _ (by simp [frame, h])

theorem default_bias_frame (env : env_t) (s : pd_t) : (default_bias env s).holds (frame s) := by
  unfold default_bias
  split
  · next h => exact CHECK_holds _ _ _ (by simp [frame, h])
  · exact frame_refl s

theorem holds_mono {P Q : pd_t → Prop} {f : flow_t} (h : ∀ s, P s → Q s) (hf : f.holds P) :
    f.holds Q := by
  cases f with
  | next s1 => exact h s1 hf
  | ret st s1 => exact h s1 hf
  | stop => trivial

/-- Whatever state the body of `set_default_params` ends in, it differs from
the initial one only in memory primitive descriptors whose format was `any`. -/
theorem set_default_params_flow_frame (env : env_t) (s : pd_t) :
    (set_default_params_flow env s).holds (frame s) := by
  unfold set_default_params_flow
  refine andThen_holds (andThen_holds (andThen_holds (default_src_frame env s) ?_) ?_) ?_
  · intro s1 h1
    exact holds_mono (fun _ h => frame_trans h1 h) (default_dst_frame env s1)
  · intro s1 h1
    exact holds_mono (fun _ h => frame_trans h1 h) (default_weights_frame env s1)
  · intro s1 h1
    exact holds_mono (fun _ h => frame_trans h1 h) (default_bias_frame env s1)

theorem default_src_ret_fails (env : env_t) (s : pd_t) : (default_src env s).ret_fails := by
  rcases default_src_cases env s with ⟨_, e⟩ | ⟨_, _, e⟩ | ⟨h, _, fmt, _, e⟩ <;> rw [e]
  · trivial
  · exact assert_unsupported_ndims_ret_fails env s
  · exact CHECK_ret_fails _ _

theorem default_dst_ret_fails (env : env_t) (s : pd_t) : (default_dst env s).ret_fails := by
  unfold default_dst
  split
  · exact CHECK_ret_fails _ _
  · trivial

theorem default_weights_ret_fails (env : env_t) (s : pd_t) :
    (default_weights env s).ret_fails := by
  rcases default_weights_cases env s with ⟨_, e⟩ | ⟨_, _, e⟩ | ⟨h, _, fmt, _, e⟩ <;> rw [e]
  · trivial
  · exact assert_unsupported_ndims_ret_fails env s
  · exact CHECK_ret_fails _ _

theorem default_bias_ret_fails (env : env_t) (s : pd_t) : (default_bias env s).ret_fails := by
  unfold default_bias
  split
  · exact CHECK_ret_fails _ _
  · trivial

/-- A `return` inside a `CHECK` carries a status other than `success`. -/
theorem set_default_params_flow_ret_fails (env : env_t) (s : pd_t) :
    (set_default_params_flow env s).ret_fails := by
  unfold set_default_params_flow
  exact andThen_ret_fails (andThen_ret_fails (andThen_ret_fails (default_src_ret_fails env s)
    (default_dst_ret_fails env)) (default_weights_ret_fails env)) (default_bias_ret_fails env)

/-- The state `set_default_params` returns with is framed by the initial one. -/
theorem set_default_params_frame {env : env_t} {s s1 : pd_t} {st : status_t}
    (h : set_default_params env s = .returned (st, s1)) : frame s s1 := by
  have hf := set_default_params_flow_frame env s
  unfold set_default_params at h
  cases hfl : set_default_params_flow env s with
  | next a =>
    rw [hfl] at h hf
    simp only [result_t.returned.injEq, Prod.mk.injEq] at h
    rw [← h.2]; exact hf
  | ret st1 a =>
    rw [hfl] at h hf
    simp only [result_t.returned.injEq, Prod.mk.injEq] at h
    rw [← h.2]; exact hf
  | stop =>
    rw [hfl] at h
    simp at h

/-- The status `set_default_params` returns is `success` exactly when the body
runs to its last line. -/
theorem set_default_params_success_iff {env : env_t} {s s1 : pd_t} :
    set_default_params env s = .returned (.success, s1) ↔
      set_default_params_flow env s = .next s1 := by
  have hr := set_default_params_flow_ret_fails env s
  unfold set_default_params
  cases hfl : set_default_params_flow env s with
  | next a => simp
  | ret st1 a =>
    rw [hfl] at hr
    simp only [result_t.returned.injEq, Prod.mk.injEq, reduceCtorEq, iff_false, not_and]
    intro e
    exact absurd e hr
  | stop => simp

theorem andThen_frame {s : pd_t} {f : flow_t} {k : pd_t → flow_t}
    (hf : f.holds (frame s)) (hk : ∀ a, (k a).holds (frame a)) :
    (f.andThen k).holds (frame s) :=
  andThen_holds hf (fun a ha => holds_mono (fun _ h => frame_trans ha h) (hk a))

theorem andThen_runs {P : pd_t → Prop} {f : flow_t} {k : pd_t → flow_t}
    (hr : f.runs) (hf : f.holds P) (hk : ∀ a, P a → (k a).runs) : (f.andThen k).runs := by
  cases f with
  | next a => exact hk a hf
  | ret st a => trivial
  | stop => exact hr

theorem andThen_not_next_left {f : flow_t} {k : pd_t → flow_t} (hf : f.not_next) :
    (f.andThen k).not_next := by
  cases f with
  | next a => exact absurd hf (by simp [flow_t.not_next])
  | ret st a => trivial
  | stop => trivial

theorem andThen_not_next_right {P : pd_t → Prop} {f : flow_t} {k : pd_t → flow_t}
    (hf : f.holds P) (hk : ∀ a, P a → (k a).not_next) : (f.andThen k).not_next := by
  cases f with
  | next a => exact hk a hf
  | ret st a => trivial
  | stop => trivial

theorem CHECK_runs (st : status_t) (s : pd_t) : (CHECK st s).runs := by
  rcases CHECK_cases st s with ⟨_, e⟩ | ⟨_, e⟩ <;> rw [e] <;> trivial

theorem default_src_runs (env : env_t) (s : pd_t)
    (h : env.ndebug = true ∨ handled_ndims (env.ndims s.desc_) ∨ s.src_pd_.desc_.format ≠ .any) :
    (default_src env s).runs := by
  rcases default_src_cases env s with ⟨_, e⟩ | ⟨h1, h2, e⟩ | ⟨_, _, fmt, _, e⟩ <;> rw [e]
  · trivial
  · rcases h with h | h | h
    · simp [assert_unsupported_ndims, h, flow_t.runs]
    · exact absurd h h2
    · exact absurd h1 h
  · exact CHECK_runs _ _

theorem default_weights_runs (env : env_t) (s : pd_t)
    (h : env.ndebug = true ∨ handled_ndims (env.ndims s.desc_) ∨
      s.weights_pd_.desc_.format ≠ .any) :
    (default_weights env s).runs := by
  rcases default_weights_cases env s with ⟨_, e⟩ | ⟨h1, h2, e⟩ | ⟨_, _, fmt, _, e⟩ <;> rw [e]
  · trivial
  · rcases h with h | h | h
    · simp [assert_unsupported_ndims, h, flow_t.runs]
    · exact absurd h h2
    · exact absurd h1 h
  · exact CHECK_runs _ _

theorem default_dst_runs (env : env_t) (s : pd_t) : (default_dst env s).runs := by
  unfold default_dst
  split
  · exact CHECK_runs _ _
  · trivial

theorem default_bias_runs (env : env_t) (s : pd_t) : (default_bias env s).runs := by
  unfold default_bias
  split
  · exact CHECK_runs _ _
  · trivial

/-- The body of `set_default_params` meets no failing `assert` when the build
defines `NDEBUG`, the rank has a `case`, or neither `switch` is entered. -/
theorem set_default_params_flow_runs (env : env_t) (s : pd_t)
    (h : env.ndebug = true ∨ handled_ndims (env.ndims s.desc_) ∨
      (s.src_pd_.desc_.format ≠ .any ∧ s.weights_pd_.desc_.format ≠ .any)) :
    (set_default_params_flow env s).runs := by
  unfold set_default_params_flow
  have f1 := default_src_frame env s
  have f2 := andThen_frame f1 (default_dst_frame env)
  have f3 := andThen_frame f2 (default_weights_frame env)
  have r1 : (default_src env s).runs := by
    apply default_src_runs
    rcases h with h | h | h
    · exact Or.inl h
    · exact Or.inr (Or.inl h)
    · exact Or.inr (Or.inr h.1)
  have r2 := andThen_runs r1 f1 (fun a _ => default_dst_runs env a)
  have r3 : (((default_src env s).andThen (default_dst env)).andThen (default_weights env)).runs := by
    refine andThen_runs r2 f2 ?_
    intro a ha
    apply default_weights_runs
    rcases h with h | h | h
    · exact Or.inl h
    · exact Or.inr (Or.inl (by rw [ha.2.1]; exact h))
    · exact Or.inr (Or.inr (by rw [ha.2.2.2.2.2.2.2.1 h.2]; exact h.2))
  exact andThen_runs r3 f3 (fun a _ => default_bias_runs env a)

/-- In a build with assertions, a rank without a `case` and an unspecified
source layout stop the body at the first `assert`. -/
theorem set_default_params_flow_stop_src (env : env_t) (s : pd_t)
    (hd : env.ndebug = false) (hn : ¬ handled_ndims (env.ndims s.desc_))
    (hs : s.src_pd_.desc_.format = .any) : set_default_params_flow env s = .stop := by
  have e : default_src env s = .stop := by
    rcases default_src_cases env s with ⟨h, _⟩ | ⟨_, _, e⟩ | ⟨_, h, _⟩
    · exact absurd hs h
    · rw [e]; simp [assert_unsupported_ndims, hd]
    · exact absurd h hn
  simp [set_default_params_flow, e, flow_t.andThen]

/-- In a build with assertions, a rank without a `case` and an unspecified
source or weights layout keep the body from reaching its last line. -/
theorem set_default_params_flow_not_next (env : env_t) (s : pd_t)
    (hd : env.ndebug = false) (hn : ¬ handled_ndims (env.ndims s.desc_))
    (hs : s.src_pd_.desc_.format = .any ∨ s.weights_pd_.desc_.format = .any) :
    (set_default_params_flow env s).not_next := by
  by_cases h1 : s.src_pd_.desc_.format = .any
  · rw [set_default_params_flow_stop_src env s hd hn h1]; trivial
  · have hw : s.weights_pd_.desc_.format = .any := by
      rcases hs with h | h
      · exact absurd h h1
      · exact h
    unfold set_default_params_flow
    apply andThen_not_next_left
    have f1 := default_src_frame env s
    have f2 := andThen_frame f1 (default_dst_frame env)
    have key : ∀ a, (frame s a ∧ a.weights_pd_ = s.weights_pd_) →
        (default_weights env a).not_next := by
      intro a ha
      rcases default_weights_cases env a with ⟨h, _⟩ | ⟨_, _, e⟩ | ⟨_, h, _⟩
      · rw [ha.2] at h; exact absurd hw h
      · rw [e]; simp [assert_unsupported_ndims, hd, flow_t.not_next]
      · rw [ha.1.2.1] at h; exact absurd h hn
    have w1 : (default_src env s).holds (fun a => frame s a ∧ a.weights_pd_ = s.weights_pd_) := by
      rcases default_src_cases env s with ⟨_, e⟩ | ⟨_, _, e⟩ | ⟨h, _, fmt, _, e⟩ <;> rw [e]
      · exact ⟨frame_refl s, rfl⟩
      · exact assert_unsupported_ndims_holds _ env s ⟨frame_refl s, rfl⟩
      · exact CHECK_holds _ _ _ ⟨by simp [frame, h], rfl⟩
    have w2 : ((default_src env s).andThen (default_dst env)).holds
        (fun a => frame s a ∧ a.weights_pd_ = s.weights_pd_) := by
      refine andThen_holds w1 ?_
      intro a ha
      unfold default_dst
      split
      · next h =>
        refine CHECK_holds _ _ _ ⟨frame_trans ha.1 (by simp [frame, h]), ha.2⟩
      · exact ha
    exact andThen_not_next_right w2 key

/-! ## Lemmas on a second run of `set_default_params` -/

theorem andThen_next_holds {P Q : pd_t → Prop} {f : flow_t} {k : pd_t → flow_t}
    (hf : f.next_holds P) (hk : ∀ a, P a → (k a).next_holds Q) :
    (f.andThen k).next_holds Q := by
  cases f with
  | next a => exact hk a hf
  | ret st a => trivial
  | stop => trivial

theorem CHECK_next_holds (P : pd_t → Prop) (st : status_t) (s : pd_t)
    (h : st = .success → P s) : (CHECK st s).next_holds P := by
  rcases CHECK_cases st s with ⟨h1, e⟩ | ⟨_, e⟩ <;> rw [e]
  · exact h h1
  · trivial

theorem settled_flow {env : env_t} {s : pd_t} (h : settled env s) :
    set_default_params_flow env s = .next s := by
  obtain ⟨h1, h2, h3, h4⟩ := h
  have e1 : default_src env s = .next s := by
    rcases default_src_cases env s with ⟨_, e⟩ | ⟨a, _, e⟩ | ⟨a, b, _⟩
    · exact e
    · rw [e]; simp [assert_unsupported_ndims, (h1 a).1]
    · exact absurd b (h1 a).2
  have e2 : default_dst env s = .next s := by simp [default_dst, h2]
  have e3 : default_weights env s = .next s := by
    rcases default_weights_cases env s with ⟨_, e⟩ | ⟨a, _, e⟩ | ⟨a, b, _⟩
    · exact e
    · rw [e]; simp [assert_unsupported_ndims, (h3 a).1]
    · exact absurd b (h3 a).2
  have e4 : default_bias env s = .next s := by simp [default_bias, h4]
  simp [set_default_params_flow, flow_t.andThen, e1, e2, e3, e4]

theorem flow_next_settled {env : env_t} (hst : set_format_stores env) (s : pd_t) :
    (set_default_params_flow env s).next_holds (settled env) := by
  unfold set_default_params_flow
  have p1 : (default_src env s).next_holds (fun a =>
      (a.src_pd_.desc_.format = .any →
        env.ndebug = true ∧ ¬ handled_ndims (env.ndims a.desc_))) := by
    rcases default_src_cases env s with ⟨h, e⟩ | ⟨_, h, e⟩ | ⟨_, _, fmt, hf, e⟩ <;> rw [e]
    · intro a; exact absurd a h
    · unfold assert_unsupported_ndims
      split
      · next hd => intro _; exact ⟨hd, h⟩
      · trivial
    · refine CHECK_next_holds _ _ _ ?_
      intro hs a
      have := hst _ _ hs
      simp only at a
      rw [this] at a
      exact absurd a hf
  have p2 : ((default_src env s).andThen (default_dst env)).next_holds (fun a =>
      (a.src_pd_.desc_.format = .any →
        env.ndebug = true ∧ ¬ handled_ndims (env.ndims a.desc_)) ∧
      a.dst_pd_.desc_.format ≠ .any) := by
    refine andThen_next_holds p1 ?_
    intro a ha
    unfold default_dst
    split
    · refine CHECK_next_holds _ _ _ ?_
      intro hs
      refine ⟨ha, ?_⟩
      have := hst _ _ hs
      simp only
      rw [this]
      simp
    · next h => exact ⟨ha, h⟩
  have p3 : (((default_src env s).andThen (default_dst env)).andThen
      (default_weights env)).next_holds (fun a =>
      (a.src_pd_.desc_.format = .any →
        env.ndebug = true ∧ ¬ handled_ndims (env.ndims a.desc_)) ∧
      a.dst_pd_.desc_.format ≠ .any ∧
      (a.weights_pd_.desc_.format = .any →
        env.ndebug = true ∧ ¬ handled_ndims (env.ndims a.desc_))) := by
    refine andThen_next_holds p2 ?_
    intro a ha
    rcases default_weights_cases env a with ⟨h, e⟩ | ⟨_, h, e⟩ | ⟨_, _, fmt, hf, e⟩ <;> rw [e]
    · exact ⟨ha.1, ha.2, fun c => absurd c h⟩
    · unfold assert_unsupported_ndims
      split
      · next hd => exact ⟨ha.1, ha.2, fun _ => ⟨hd, h⟩⟩
      · trivial
    · refine CHECK_next_holds _ _ _ ?_
      intro hs
      refine ⟨ha.1, ha.2, ?_⟩
      intro c
      have := hst _ _ hs
      simp only at c
      rw [this] at c
      exact absurd c hf
  refine andThen_next_holds p3 ?_
  intro a ha
  unfold default_bias
  split
  · refine CHECK_next_holds _ _ _ ?_
    intro hs
    refine ⟨ha.1, ha.2.1, ha.2.2, ?_⟩
    have := hst _ _ hs
    simp only
    rw [this]
    simp
  · next h => exact ⟨ha.1, ha.2.1, ha.2.2, h⟩

/-! ## Lemmas on `init` -/

/-- Under `asserts_hold`, `set_default_params` returns. -/
theorem set_default_params_returns {env : env_t} {s : pd_t} (h : asserts_hold env s) :
    ∃ st s1, set_default_params env s = .returned (st, s1) := by
  have hr : (set_default_params_flow env s).runs := by
    apply set_default_params_flow_runs
    rcases h with h | ⟨_, h | h⟩
    · exact Or.inl h
    · exact Or.inr (Or.inl h)
    · exact Or.inr (Or.inr h)
  unfold set_default_params
  cases hfl : set_default_params_flow env s with
  | next a => exact ⟨_, _, rfl⟩
  | ret st a => exact ⟨_, _, rfl⟩
  | stop => rw [hfl] at hr; exact absurd hr (by simp [flow_t.runs])

/-- Under `asserts_hold`, the `assert` on the engine kind passes. -/
theorem asserts_hold_engine {env : env_t} {s : pd_t} (h : asserts_hold env s) :
    ¬ (env.ndebug = false ∧ s.engine_kind ≠ .cpu) := by
  rintro ⟨h1, h2⟩
  rcases h with h | ⟨h, _⟩
  · rw [h1] at h; exact absurd h (by simp)
  · exact h2 h

/-- A call of `init` that returns `success` went through lines 73-77. -/
theorem init_success {env : env_t} {src_type dst_type : data_type_t} {s s' : pd_t}
    (h : init env src_type dst_type s = .returned (.success, s')) :
    ∃ s1, set_default_params env s = .returned (.success, s1) ∧
      init_checks env src_type dst_type s1 = true ∧
      s' = init_scratchpad env { s1 with dst_is_acc_ := one_of dst_type [.s32, .f32] } := by
  unfold init at h
  split at h
  · simp at h
  · split at h
    · simp at h
    · next st s1 hsdp =>
      simp only at h
      split at h
      · simp at h
      · next hok =>
        simp only [Bool.not_eq_true, Bool.not_eq_false, Bool.and_eq_true,
          decide_eq_true_eq, Bool.not_eq_eq_eq_not, Bool.not_true, Bool.not_false] at hok
        simp only [result_t.returned.injEq, Prod.mk.injEq, true_and] at h
        refine ⟨s1, ?_, hok.2, h.symm⟩
        rw [hsdp, hok.1]

/-- When `set_default_params` returns and `ok` is false, `init` returns
`unimplemented` at line 71 with the state `set_default_params` left. -/
theorem init_unimplemented {env : env_t} {src_type dst_type : data_type_t} {s s1 : pd_t}
    {st : status_t} (he : ¬ (env.ndebug = false ∧ s.engine_kind ≠ .cpu))
    (h : set_default_params env s = .returned (st, s1))
    (hok : st ≠ .success ∨ init_checks env src_type dst_type s1 = false) :
    init env src_type dst_type s = .returned (.unimplemented, s1) := by
  unfold init
  rw [if_neg he, h]
  simp only
  rcases hok with hok | hok
  · simp [hok]
  · simp [hok]

/-- When `set_default_params` returns `success` and every check passes, `init`
returns `success`. -/
theorem init_accepts {env : env_t} {src_type dst_type : data_type_t} {s s1 : pd_t}
    (he : ¬ (env.ndebug = false ∧ s.engine_kind ≠ .cpu))
    (h : set_default_params env s = .returned (.success, s1))
    (hok : init_checks env src_type dst_type s1 = true) :
    init env src_type dst_type s = .returned (.success,
      init_scratchpad env { s1 with dst_is_acc_ := one_of dst_type [.s32, .f32] }) := by
  unfold init
  rw [if_neg he, h]
  simp [hok]

/-- The two ways a call of `init` that does not return `success` can end. -/
theorem init_of_checks_fail {env : env_t} {src_type dst_type : data_type_t} {s : pd_t}
    (hok : ∀ s1, frame s s1 → init_checks env src_type dst_type s1 = false) :
    init env src_type dst_type s = .assert_failed ∨
      ∃ st s1, set_default_params env s = .returned (st, s1) ∧
        init env src_type dst_type s = .returned (.unimplemented, s1) := by
  by_cases he : env.ndebug = false ∧ s.engine_kind ≠ .cpu
  · left; unfold init; rw [if_pos he]
  · cases hsdp : set_default_params env s with
    | assert_failed => left; unfold init; rw [if_neg he, hsdp]
    | returned r =>
      obtain ⟨st, s1⟩ := r
      right
      exact ⟨st, s1, rfl, init_unimplemented he hsdp
        (Or.inr (hok s1 (set_default_params_frame hsdp)))⟩

/-- Under `asserts_hold`, `init` does not stop at an `assert`. -/
theorem init_runs {env : env_t} {src_type dst_type : data_type_t} {s : pd_t}
    (h : asserts_hold env s) : init env src_type dst_type s ≠ .assert_failed := by
  obtain ⟨st, s1, hsdp⟩ := set_default_params_returns h
  unfold init
  rw [if_neg (asserts_hold_engine h), hsdp]
  simp only
  split <;> simp

/-- The conjuncts of `ok`, one by one. -/
theorem init_checks_iff (env : env_t) (src_type dst_type : data_type_t) (s : pd_t) :
    init_checks env src_type dst_type s = true ↔
      ((s.desc_.prop_kind = .forward_training ∨ s.desc_.prop_kind = .forward_inference) ∧
       env.has_zero_dim_memory s = false ∧
       s.desc_.src_desc.data_type = src_type ∧
       s.desc_.dst_desc.data_type = dst_type ∧
       s.desc_.weights_desc.data_type = .s8 ∧
       (env.with_bias s.desc_ = true →
          s.desc_.bias_desc.data_type ∈ [data_type_t.f32, .s32, .s8, .u8]) ∧
       s.attr_.post_ops_.len_ ≤ 1 ∧
       (s.attr_.post_ops_.len_ ≠ 0 → s.attr_.post_ops_.entry_0.is_relu true false = true) ∧
       env.dense_gemm_consitency_check s.src_pd_ s.weights_pd_ s.dst_pd_ = true) := by
  unfold init_checks IMPLICATION one_of
  simp only [Bool.and_eq_true, decide_eq_true_eq, Bool.or_eq_true, Bool.not_eq_true',
    decide_eq_false_iff_not, List.mem_cons, List.mem_singleton, List.not_mem_nil, or_false,
    Bool.not_eq_eq_eq_not, Bool.not_true, ne_eq, Decidable.not_not]
  constructor
  · rintro ⟨⟨⟨⟨⟨⟨⟨⟨h1, h2⟩, h3⟩, h4⟩, h5⟩, h6⟩, h7⟩, h8⟩, h9⟩
    refine ⟨h1, h2, h3, h4, h5, ?_, h7, ?_, h9⟩
    · intro hb
      rcases h6 with h6 | h6
      · rw [hb] at h6; exact absurd h6 (by simp)
      · exact h6
    · intro hl
      rcases h8 with h8 | h8
      · exact absurd h8 hl
      · exact h8
  · rintro ⟨h1, h2, h3, h4, h5, h6, h7, h8, h9⟩
    refine ⟨⟨⟨⟨⟨⟨⟨⟨h1, h2⟩, h3⟩, h4⟩, h5⟩, ?_⟩, h7⟩, ?_⟩, h9⟩
    · by_cases hb : env.with_bias s.desc_ = true
      · exact Or.inr (h6 hb)
      · exact Or.inl (by simpa using hb)
    · by_cases hl : s.attr_.post_ops_.len_ = 0
      · exact Or.inl hl
      · exact Or.inr (h8 hl)

/-- `ok` is false as soon as one listed condition on the state is false. -/
theorem init_checks_false_of {env : env_t} {src_type dst_type : data_type_t} {s : pd_t}
    (h : ¬ (s.desc_.src_desc.data_type = src_type ∧
       s.desc_.dst_desc.data_type = dst_type ∧
       s.desc_.weights_desc.data_type = .s8 ∧
       (env.with_bias s.desc_ = true →
          s.desc_.bias_desc.data_type ∈ [data_type_t.f32, .s32, .s8, .u8]) ∧
       s.attr_.post_ops_.len_ ≤ 1 ∧
       (s.attr_.post_ops_.len_ ≠ 0 → s.attr_.post_ops_.entry_0.is_relu true false = true))) :
    init_checks env src_type dst_type s = false := by
  by_contra hc
  have ht : init_checks env src_type dst_type s = true := by simpa using hc
  obtain ⟨_, _, h3, h4, h5, h6, h7, h8, _⟩ := (init_checks_iff env src_type dst_type s).1 ht
  exact h ⟨h3, h4, h5, h6, h7, h8⟩

/-- Conversion to `size_t` of a non-negative value. -/
theorem to_size_t_natCast (n : Nat) : to_size_t (n : Int) = n % 2 ^ 64 := by
  unfold to_size_t
  have : (n : Int) % 2 ^ 64 = ((n % 2 ^ 64 : Nat) : Int) := by norm_cast
  rw [this, Int.toNat_natCast]

/-- The product `sizeof(acc_data_t) * MB * OC` in `size_t` is `4 * MB * OC`
when that fits. -/
theorem size_t_bytes (mb oc : Nat) (h : 4 * mb * oc < 2 ^ 64) :
    size_t_mul (size_t_mul sizeof_acc_data_t (to_size_t (mb : Int))) (to_size_t (oc : Int))
      = 4 * mb * oc := by
  rw [to_size_t_natCast, to_size_t_natCast]
  unfold size_t_mul sizeof_acc_data_t
  have a : 4 * (mb % 2 ^ 64) % 2 ^ 64 = 4 * mb % 2 ^ 64 := by
    rw [Nat.mul_mod 4 (mb % 2 ^ 64) (2 ^ 64), Nat.mod_mod, ← Nat.mul_mod]
  rw [a, ← Nat.mul_mod]
  exact Nat.mod_eq_of_lt h

/-- Under `asserts_hold`, a descriptor that fails a check after
`set_default_params` is answered with `unimplemented`. -/
theorem init_unimplemented_of_checks_fail {env : env_t} {src_type dst_type : data_type_t}
    {s : pd_t} (ha : asserts_hold env s)
    (hok : ∀ s1, frame s s1 → init_checks env src_type dst_type s1 = false) :
    ∃ s1, init env src_type dst_type s = .returned (.unimplemented, s1) := by
  rcases init_of_checks_fail hok with h | ⟨_, s1, _, h⟩
  · exact absurd h (init_runs ha)
  · exact ⟨s1, h⟩

/-- A descriptor that fails a check after `set_default_params` is never
answered with `success`. -/
theorem init_ne_success_of_checks_fail {env : env_t} {src_type dst_type : data_type_t}
    {s : pd_t} (hok : ∀ s1, frame s s1 → init_checks env src_type dst_type s1 = false)
    (s' : pd_t) : init env src_type dst_type s ≠ .returned (.success, s') := by
  intro hs
  obtain ⟨s1, hsdp, hc, _⟩ := init_success hs
  rw [hok s1 (set_default_params_frame hsdp)] at hc
  exact absurd hc (by simp)

theorem sample_set_format_stores (ndebug : Bool) : set_format_stores (sample_env ndebug) :=
  fun _ _ _ => rfl

/-! ## Lemmas on the post-processing routine -/

/-- The accumulator value at `j` depends on the destination buffer at `j`
only. -/
theorem acc_arg_read_local {D : Type} (acc : acc_arg_t D) (m1 m2 : Nat → D) (j : Nat)
    (h : m1 j = m2 j) : acc.read m1 j = acc.read m2 j := by
  cases acc with
  | own data => rfl
  | dst_itself as_acc => simp [acc_arg_t.read, h]

/-- What the loop leaves at index `j`, when both sub-ranges start at the same
index. -/
theorem ker_from_apply {F D B : Type} (k : pp_kernel_t) (ops : arith_t F D B)
    (acc : acc_arg_t D) (args : ker_args F B) (hb : args.acc = args.dst) :
    ∀ (n i : Nat) (mem : Nat → D) (j : Nat),
      k.ker_from ops acc args n i mem j =
        if args.dst + i ≤ j ∧ j < args.dst + i + n then
          k.element ops args (acc.read mem j) ((args.oc_offset + (j - args.dst)) % k.OC_)
        else mem j := by
  intro n
  induction n with
  | zero =>
    intro i mem j
    have : ¬ (args.dst + i ≤ j ∧ j < args.dst + i + 0) := by omega
    rw [pp_kernel_t.ker_from, if_neg this]
  | succ n ih =>
    intro i mem j
    rw [pp_kernel_t.ker_from, ih]
    by_cases hj : j = args.dst + i
    · subst hj
      have h1 : ¬ (args.dst + (i + 1) ≤ args.dst + i ∧
          args.dst + i < args.dst + (i + 1) + n) := by omega
      have h2 : args.dst + i ≤ args.dst + i ∧ args.dst + i < args.dst + i + (n + 1) := by
        omega
      rw [if_neg h1, if_pos h2, Function.update_same, hb]
      have e : args.dst + i - args.dst = i := by omega
      rw [e]
    · have hu : Function.update mem (args.dst + i)
          (k.element ops args (acc.read mem (args.acc + i))
            ((args.oc_offset + i) % k.OC_)) j = mem j :=
        Function.update_noteq hj _ _
      rw [acc_arg_read_local acc _ mem j hu, hu]
      by_cases hr : args.dst + (i + 1) ≤ j ∧ j < args.dst + (i + 1) + n
      · have hr2 : args.dst + i ≤ j ∧ j < args.dst + i + (n + 1) := by omega
        rw [if_pos hr, if_pos hr2]
      · have hr2 : ¬ (args.dst + i ≤ j ∧ j < args.dst + i + (n + 1)) := by omega
        rw [if_neg hr, if_neg hr2]

/-- The element computation reads the bias, the scales and the slope of its
argument record only. -/
theorem element_congr {F D B : Type} (k : pp_kernel_t) (ops : arith_t F D B)
    (a1 a2 : ker_args F B) (hb : a1.bias = a2.bias) (hs : a1.scales = a2.scales)
    (a : Int) (c : Nat) : k.element ops a1 a c = k.element ops a2 a c := by
  simp [pp_kernel_t.element, hb, hs]

/-- One invocation: inside `[start, end)` the routine stores the element of
channel `j mod OC`; outside it leaves the destination alone. -/
theorem call_apply {F D B : Type} (k : pp_kernel_t) (ops : arith_t F D B)
    (dst : Nat → D) (acc : acc_arg_t D) (bias : Nat → B) (scales : Nat → F) (nslope : F)
    (start end_ : Nat) (hse : start ≤ end_) (j : Nat) :
    k.call ops dst acc bias scales nslope start end_ j =
      if in_chunk (start, end_) j then k.stored ops acc bias scales nslope dst j
      else dst j := by
  unfold pp_kernel_t.call pp_kernel_t.ker
  rw [ker_from_apply k ops acc _ rfl]
  simp only [Nat.add_zero, in_chunk]
  by_cases h : start ≤ j ∧ j < end_
  · have h2 : start ≤ j ∧ j < start + (end_ - start) := by omega
    rw [if_pos h, if_pos h2]
    unfold pp_kernel_t.stored
    have e : (start % k.OC_ + (j - start)) % k.OC_ = j % k.OC_ := by
      rw [Nat.add_mod, Nat.mod_mod, ← Nat.add_mod]
      congr 1
      omega
    rw [e]
    exact element_congr k ops _ _ rfl rfl _ _
  · have h2 : ¬ (start ≤ j ∧ j < start + (end_ - start)) := by omega
    rw [if_neg h, if_neg h2]

/-- What is stored at `j` depends on the destination buffer at `j` only. -/
theorem stored_local {F D B : Type} (k : pp_kernel_t) (ops : arith_t F D B)
    (acc : acc_arg_t D) (bias : Nat → B) (scales : Nat → F) (nslope : F)
    (m1 m2 : Nat → D) (j : Nat) (h : m1 j = m2 j) :
    k.stored ops acc bias scales nslope m1 j = k.stored ops acc bias scales nslope m2 j := by
  unfold pp_kernel_t.stored
  rw [acc_arg_read_local acc m1 m2 j h]

/-- Invocations on pairwise disjoint chunks: an index covered by a chunk gets
the element computed from the initial buffer, every other index is left
alone. -/
theorem call_chunks_apply {F D B : Type} (k : pp_kernel_t) (ops : arith_t F D B)
    (acc : acc_arg_t D) (bias : Nat → B) (scales : Nat → F) (nslope : F) :
    ∀ (chunks : List (Nat × Nat)) (dst : Nat → D),
      (∀ c ∈ chunks, c.1 ≤ c.2) → chunks.Pairwise chunks_disjoint → ∀ j,
      k.call_chunks ops acc bias scales nslope chunks dst j =
        if ∃ c ∈ chunks, in_chunk c j then k.stored ops acc bias scales nslope dst j
        else dst j := by
  intro chunks
  induction chunks with
  | nil => intro dst _ _ j; simp [pp_kernel_t.call_chunks]
  | cons c rest ih =>
    intro dst hle hpw j
    have hle_rest : ∀ d ∈ rest, d.1 ≤ d.2 := fun d hd => hle d (List.mem_cons_of_mem c hd)
    have hpw_rest := (List.pairwise_cons.1 hpw).2
    have hdis := (List.pairwise_cons.1 hpw).1
    have hc := call_apply k ops dst acc bias scales nslope c.1 c.2
      (hle c (List.mem_cons_self c rest)) j
    have step : k.call_chunks ops acc bias scales nslope (c :: rest) dst =
        k.call_chunks ops acc bias scales nslope rest
          (k.call ops dst acc bias scales nslope c.1 c.2) := by
      simp [pp_kernel_t.call_chunks]
    rw [step, ih _ hle_rest hpw_rest j]
    by_cases hr : ∃ d ∈ rest, in_chunk d j
    · obtain ⟨d, hd, hdj⟩ := hr
      have hnc : ¬ in_chunk c j := by
        intro hcj
        have := hdis d hd
        unfold chunks_disjoint at this
        unfold in_chunk at hcj hdj
        omega
      have hsame : k.call ops dst acc bias scales nslope c.1 c.2 j = dst j := by
        rw [hc, if_neg hnc]
      have hex : ∃ e ∈ c :: rest, in_chunk e j := ⟨d, List.mem_cons_of_mem c hd, hdj⟩
      rw [if_pos ⟨d, hd, hdj⟩, if_pos hex]
      exact stored_local k ops acc bias scales nslope _ _ j hsame
    · rw [if_neg hr, hc]
      by_cases hcj : in_chunk c j
      · have hex : ∃ e ∈ c :: rest, in_chunk e j := ⟨c, List.mem_cons_self c rest, hcj⟩
        rw [if_pos hcj, if_pos hex]
      · have hex : ¬ ∃ e ∈ c :: rest, in_chunk e j := by
          rintro ⟨e, he, hej⟩
          rcases List.mem_cons.1 he with h | h
          · subst h; exact hcj hej
          · exact hr ⟨e, h, hej⟩
        rw [if_neg hcj, if_neg hex]

/-- At rank 0 the body of `set_default_params` runs the code of `case 2`: it
reaches its last line when the calls of `set_format` it makes succeed. -/
theorem set_default_params_rank0_returns {env : env_t} {s : pd_t}
    (hr : env.ndims s.desc_ = 0)
    (h1 : s.src_pd_.desc_.format = .any → (env.set_format s.src_pd_ .nc).1 = .success)
    (h2 : s.dst_pd_.desc_.format = .any → (env.set_format s.dst_pd_ .nc).1 = .success)
    (h3 : s.weights_pd_.desc_.format = .any →
      (env.set_format s.weights_pd_ .io).1 = .success)
    (h4 : s.bias_pd_.desc_.format = .any → (env.set_format s.bias_pd_ .x).1 = .success) :
    ∃ s1, set_default_params env s = .returned (.success, s1) := by
  have p1 : ∃ a, default_src env s = .next a ∧ a.desc_ = s.desc_ ∧ a.dst_pd_ = s.dst_pd_ ∧
      a.weights_pd_ = s.weights_pd_ ∧ a.bias_pd_ = s.bias_pd_ := by
    by_cases h : s.src_pd_.desc_.format = .any
    · exact ⟨{ s with src_pd_ := (env.set_format s.src_pd_ .nc).2 },
        by simp [default_src, h, hr, check_set_src, CHECK, h1 h], rfl, rfl, rfl, rfl⟩
    · exact ⟨s, by simp [default_src, h], rfl, rfl, rfl, rfl⟩
  obtain ⟨a, ea, ad, adst, aw, ab⟩ := p1
  have p2 : ∃ b, default_dst env a = .next b ∧ b.desc_ = s.desc_ ∧
      b.weights_pd_ = s.weights_pd_ ∧ b.bias_pd_ = s.bias_pd_ := by
    by_cases h : a.dst_pd_.desc_.format = .any
    · have hok : (env.set_format a.dst_pd_ .nc).1 = .success := by
        rw [adst]; rw [adst] at h; exact h2 h
      exact ⟨{ a with dst_pd_ := (env.set_format a.dst_pd_ .nc).2 },
        by simp [default_dst, h, check_set_dst, CHECK, hok], ad, aw, ab⟩
    · exact ⟨a, by simp [default_dst, h], ad, aw, ab⟩
  obtain ⟨b, eb, bd, bw, bb⟩ := p2
  have p3 : ∃ c, default_weights env b = .next c ∧ c.bias_pd_ = s.bias_pd_ := by
    by_cases h : b.weights_pd_.desc_.format = .any
    · have hok : (env.set_format b.weights_pd_ .io).1 = .success := by
        rw [bw]; rw [bw] at h; exact h3 h
      exact ⟨{ b with weights_pd_ := (env.set_format b.weights_pd_ .io).2 },
        by simp [default_weights, h, bd, hr, check_set_weights, CHECK, hok], bb⟩
    · exact ⟨b, by simp [default_weights, h], bb⟩
  obtain ⟨c, ec, cb⟩ := p3
  have p4 : ∃ d, default_bias env c = .next d := by
    by_cases h : c.bias_pd_.desc_.format = .any
    · have hok : (env.set_format c.bias_pd_ .x).1 = .success := by
        rw [cb]; rw [cb] at h; exact h4 h
      exact ⟨{ c with bias_pd_ := (env.set_format c.bias_pd_ .x).2 },
        by simp [default_bias, h, check_set_bias, CHECK, hok]⟩
    · exact ⟨c, by simp [default_bias, h]⟩
  obtain ⟨d, ed⟩ := p4
  exact ⟨d, by simp only [set_default_params, set_default_params_flow, flow_t.andThen,
    ea, eb, ec, ed]⟩

/-! ## Theorems on the claims -/

/-- C1, as stated, fails: on the rank-6 sample with unspecified layouts and two
ReLU post-ops, on a CPU engine in a build with assertions, `init` runs
`set_default_params` first (line 56), stops at
`assert(!"unsupported ndims format")` and returns no status; the check on the
number of post-ops (line 66) is not reached. -/
theorem init_two_post_ops_rank6_counterexample :
    (2 : Int) ≤ (sample_pd_6d_post_ops [sample_relu, sample_relu]).attr_.post_ops_.len_ ∧
    (sample_pd_6d_post_ops [sample_relu, sample_relu]).engine_kind = .cpu ∧
    init (sample_env false) .u8 .u8 (sample_pd_6d_post_ops [sample_relu, sample_relu]) =
      .assert_failed := by
  decide

/-- C1, amended: a descriptor whose post-op list has length 2 or more is never
accepted, whatever its data types, shapes and layouts.  `init` never returns
`success`; the call either returns `unimplemented` at line 71, with the state
`set_default_params` left, in which `dst_is_acc_` and the scratchpad registry
are as before the call (lines 73 and 75 are not reached), or it stops at an
`assert`; and it does not stop at an `assert` when `asserts_hold`. -/
theorem init_rejects_two_post_ops (env : env_t) (src_type dst_type : data_type_t) (s : pd_t)
    (h : 2 ≤ s.attr_.post_ops_.len_) :
    (∀ s', init env src_type dst_type s ≠ .returned (.success, s')) ∧
    (init env src_type dst_type s = .assert_failed ∨
      ∃ st s1, set_default_params env s = .returned (st, s1) ∧
        init env src_type dst_type s = .returned (.unimplemented, s1) ∧
        s1.dst_is_acc_ = s.dst_is_acc_ ∧
        s1.scratchpad_registry_ = s.scratchpad_registry_) ∧
    (asserts_hold env s → init env src_type dst_type s ≠ .assert_failed) := by
  have hbad : ∀ s1, frame s s1 → init_checks env src_type dst_type s1 = false := by
    intro s1 hf
    apply init_checks_false_of
    rintro ⟨_, _, _, _, h7, _⟩
    rw [hf.2.2.1] at h7
    omega
  refine ⟨?_, ?_, fun ha => init_runs ha⟩
  · intro s' hs
    obtain ⟨s1, hsdp, hok, _⟩ := init_success hs
    rw [hbad s1 (set_default_params_frame hsdp)] at hok
    exact absurd hok (by simp)
  · rcases init_of_checks_fail hbad with h1 | ⟨st, s1, h1, h2⟩
    · exact Or.inl h1
    · have hf := set_default_params_frame h1
      exact Or.inr ⟨st, s1, h1, h2, hf.2.2.2.1, hf.2.2.2.2.1⟩

/-- Witness of C1, amended: two ReLU post-ops on the 2-D sample problem are answered
with `unimplemented`, the flag and the registry untouched. -/
theorem init_rejects_two_post_ops_witness :
    (2 : Int) ≤ (sample_pd_2d .u8 [sample_relu, sample_relu]).attr_.post_ops_.len_ ∧
    asserts_hold (sample_env false) (sample_pd_2d .u8 [sample_relu, sample_relu]) ∧
    init (sample_env false) .u8 .u8 (sample_pd_2d .u8 [sample_relu, sample_relu]) =
      .returned (.unimplemented, sample_pd_2d_done .u8 [sample_relu, sample_relu] false []) ∧
    init (sample_env false) .u8 .u8 (sample_pd_2d .u8 [sample_relu, sample_relu])
      ≠ .assert_failed :=
  ⟨by decide, by decide, by decide,
    (init_rejects_two_post_ops (sample_env false) .u8 .u8
      (sample_pd_2d .u8 [sample_relu, sample_relu]) (by decide)).2.2 (by decide)⟩

/-- C2: on every descriptor on which `init` returns `success`, `dst_is_acc_` is
true exactly when `dst_type` is `s32` or `f32`.  When it is true the scratchpad
registry is as before the call.  When it is false the registry has exactly one
more booking, under `key_iprod_int_dat_in_acc_dt`, of
`sizeof(acc_data_t) * MB() * OC()` bytes computed in `size_t`; that is
`4 * MB * OC` bytes for non-negative `MB` and `OC` whose product fits. -/
theorem init_success_scratchpad (env : env_t) (src_type dst_type : data_type_t) (s s' : pd_t)
    (h : init env src_type dst_type s = .returned (.success, s')) :
    (s'.dst_is_acc_ = true ↔ (dst_type = .s32 ∨ dst_type = .f32)) ∧
    (s'.dst_is_acc_ = true → s'.scratchpad_registry_ = s.scratchpad_registry_) ∧
    (s'.dst_is_acc_ = false →
      s'.scratchpad_registry_ = s.scratchpad_registry_ ++
        [(key_t.key_iprod_int_dat_in_acc_dt,
          size_t_mul (size_t_mul sizeof_acc_data_t (to_size_t (env.MB s.desc_)))
            (to_size_t (env.OC s.desc_)))]) ∧
    (s'.dst_is_acc_ = false → ∀ mb oc : Nat, env.MB s.desc_ = mb → env.OC s.desc_ = oc →
      4 * mb * oc < 2 ^ 64 →
      s'.scratchpad_registry_ = s.scratchpad_registry_ ++
        [(key_t.key_iprod_int_dat_in_acc_dt, 4 * mb * oc)]) := by
  obtain ⟨s1, hsdp, _, hs'⟩ := init_success h
  have hf := set_default_params_frame hsdp
  have hacc : s'.dst_is_acc_ = one_of dst_type [.s32, .f32] := by
    rw [hs']; unfold init_scratchpad; split <;> rfl
  have hreg_t : s'.dst_is_acc_ = true → s'.scratchpad_registry_ = s.scratchpad_registry_ := by
    intro ht
    rw [hacc] at ht
    rw [hs']
    unfold init_scratchpad
    simp only [ht, Bool.true_eq_false, ↓reduceIte]
    exact hf.2.2.2.2.1
  have hreg_f : s'.dst_is_acc_ = false →
      s'.scratchpad_registry_ = s.scratchpad_registry_ ++
        [(key_t.key_iprod_int_dat_in_acc_dt,
          size_t_mul (size_t_mul sizeof_acc_data_t (to_size_t (env.MB s.desc_)))
            (to_size_t (env.OC s.desc_)))] := by
    intro ht
    rw [hacc] at ht
    rw [hs']
    unfold init_scratchpad
    simp only [ht, ↓reduceIte, book]
    rw [hf.2.2.2.2.1, hf.2.1]
  refine ⟨?_, hreg_t, hreg_f, ?_⟩
  · rw [hacc]; simp [one_of]
  · intro ht mb oc hmb hoc hlt
    rw [hreg_f ht, hmb, hoc]
    rw [size_t_bytes mb oc hlt]

/-- Witness of C2: the 2-D sample problem with a `u8` destination books
`4 * 2 * 4` bytes. -/
theorem init_success_scratchpad_witness :
    init (sample_env false) .u8 .u8 (sample_pd_2d .u8 []) =
      .returned (.success, sample_pd_2d_done .u8 [] false
        [(key_t.key_iprod_int_dat_in_acc_dt, 32)]) ∧
    (sample_pd_2d_done .u8 [] false
        [(key_t.key_iprod_int_dat_in_acc_dt, 32)]).scratchpad_registry_ =
      (sample_pd_2d .u8 []).scratchpad_registry_ ++
        [(key_t.key_iprod_int_dat_in_acc_dt, 4 * 2 * 4)] :=
  ⟨by decide,
    (init_success_scratchpad (sample_env false) .u8 .u8 (sample_pd_2d .u8 [])
      (sample_pd_2d_done .u8 [] false [(key_t.key_iprod_int_dat_in_acc_dt, 32)])
      (by decide)).2.2.2 (by decide) 2 4 (by decide) (by decide) (by norm_num)⟩

/-- C3, as stated, fails: at rank 6, which is outside 2..5, with the source and
weights layouts left unspecified, in a build that defines `NDEBUG`, both
`assert(!"unsupported ndims format")` expand to nothing and
`set_default_params` returns `success`, leaving the source and weights layouts
`any`. -/
theorem set_default_params_ndebug_rank6_counterexample :
    (sample_env true).ndims sample_pd_6d.desc_ = 6 ∧
    sample_pd_6d.src_pd_.desc_.format = .any ∧
    sample_pd_6d.weights_pd_.desc_.format = .any ∧
    set_default_params (sample_env true) sample_pd_6d =
      .returned (.success,
        { sample_pd_6d with dst_pd_ := { desc_ := sample_md [2, 4] .u8 .nc } }) := by
  decide

/-- C3, amended.  In a build with assertions, for a rank that is none of
0, 2, 3, 4, 5 and an unspecified source or weights layout,
`set_default_params` does not return `success` and neither does `init`; with
an unspecified source layout both stop at
`assert(!"unsupported ndims format")`, and no status is returned.  At rank 0,
in every build, `set_default_params` runs the code of `case 2` and returns
`success` if the calls of `set_format` it makes succeed: tag `nc` on a source
or destination whose layout is `any`, `io` on such weights, `x` on such a
bias. -/
theorem set_default_params_unhandled_rank (env : env_t) (src_type dst_type : data_type_t)
    (s : pd_t) :
    (env.ndebug = false → ¬ handled_ndims (env.ndims s.desc_) →
      (s.src_pd_.desc_.format = .any ∨ s.weights_pd_.desc_.format = .any) →
      (∀ s1, set_default_params env s ≠ .returned (.success, s1)) ∧
      (∀ s', init env src_type dst_type s ≠ .returned (.success, s')) ∧
      (s.src_pd_.desc_.format = .any →
        set_default_params env s = .assert_failed ∧
        init env src_type dst_type s = .assert_failed)) ∧
    (env.ndims s.desc_ = 0 →
      (s.src_pd_.desc_.format = .any → (env.set_format s.src_pd_ .nc).1 = .success) →
      (s.dst_pd_.desc_.format = .any → (env.set_format s.dst_pd_ .nc).1 = .success) →
      (s.weights_pd_.desc_.format = .any →
        (env.set_format s.weights_pd_ .io).1 = .success) →
      (s.bias_pd_.desc_.format = .any → (env.set_format s.bias_pd_ .x).1 = .success) →
      ∃ s1, set_default_params env s = .returned (.success, s1)) := by
  refine ⟨?_, fun hr h1 h2 h3 h4 => set_default_params_rank0_returns hr h1 h2 h3 h4⟩
  intro hd hn hs
  have h1 : ∀ s1, set_default_params env s ≠ .returned (.success, s1) := by
    intro s1 hc
    have hnn := set_default_params_flow_not_next env s hd hn hs
    rw [set_default_params_success_iff.1 hc] at hnn
    exact hnn
  refine ⟨h1, ?_, ?_⟩
  · intro s' hc
    obtain ⟨s1, hsdp, _⟩ := init_success hc
    exact h1 s1 hsdp
  · intro hsrc
    have e : set_default_params env s = .assert_failed := by
      unfold set_default_params
      rw [set_default_params_flow_stop_src env s hd hn hsrc]
    refine ⟨e, ?_⟩
    unfold init
    split
    · rfl
    · rw [e]

/-- Witness of C3, amended: the rank-6 sample in a build with assertions, and
the rank-0 sample with a `set_format` that succeeds. -/
theorem set_default_params_unhandled_rank_witness :
    ((sample_env false).ndebug = false ∧
      ¬ handled_ndims ((sample_env false).ndims sample_pd_6d.desc_) ∧
      sample_pd_6d.src_pd_.desc_.format = .any ∧
      set_default_params (sample_env false) sample_pd_6d = .assert_failed ∧
      init (sample_env false) .u8 .u8 sample_pd_6d = .assert_failed) ∧
    ((sample_env false).ndims sample_pd_0d.desc_ = 0 ∧
      ∃ s1, set_default_params (sample_env false) sample_pd_0d = .returned (.success, s1)) :=
  ⟨⟨rfl, by decide, rfl,
      ((set_default_params_unhandled_rank (sample_env false) .u8 .u8 sample_pd_6d).1 rfl
        (by decide) (Or.inl rfl)).2.2 rfl⟩,
    ⟨rfl, (set_default_params_unhandled_rank (sample_env false) .u8 .u8 sample_pd_0d).2 rfl
      (fun _ => rfl) (fun _ => rfl) (fun _ => rfl) (fun _ => rfl)⟩⟩

/-- C4, as stated, fails: on the 2-D sample problem with `f32` weights `init`
returns `unimplemented`, and the source layout, `any` before the call, is `nc`
after it (likewise the other two layouts). -/
theorem init_failure_changes_formats_counterexample :
    init (sample_env false) .u8 .u8 sample_pd_f32_weights =
      .returned (.unimplemented, sample_pd_f32_weights_done) ∧
    sample_pd_f32_weights.src_pd_.desc_.format = .any ∧
    (sample_md [2, 3] .u8 .nc).format ≠ sample_pd_f32_weights.src_pd_.desc_.format := by
  decide

/-- C4, amended: when `init` returns a status other than `success`, the status
is `unimplemented`, `dst_is_acc_` and the scratchpad registry are as before
the call, and so is every memory primitive descriptor whose format was not
`any` before the call. -/
theorem init_failure_frame (env : env_t) (src_type dst_type : data_type_t) (s s' : pd_t)
    (st : status_t) (h : init env src_type dst_type s = .returned (st, s'))
    (hne : st ≠ .success) :
    st = .unimplemented ∧
    s'.dst_is_acc_ = s.dst_is_acc_ ∧
    s'.scratchpad_registry_ = s.scratchpad_registry_ ∧
    (s.src_pd_.desc_.format ≠ .any → s'.src_pd_ = s.src_pd_) ∧
    (s.dst_pd_.desc_.format ≠ .any → s'.dst_pd_ = s.dst_pd_) ∧
    (s.weights_pd_.desc_.format ≠ .any → s'.weights_pd_ = s.weights_pd_) ∧
    (s.bias_pd_.desc_.format ≠ .any → s'.bias_pd_ = s.bias_pd_) := by
  unfold init at h
  split at h
  · simp at h
  · split at h
    · simp at h
    · next st1 s1 hsdp =>
      simp only at h
      have hf := set_default_params_frame hsdp
      split at h
      · simp only [result_t.returned.injEq, Prod.mk.injEq] at h
        obtain ⟨h1, h2⟩ := h
        subst h2
        exact ⟨h1.symm, hf.2.2.2.1, hf.2.2.2.2.1, hf.2.2.2.2.2.1, hf.2.2.2.2.2.2.1,
          hf.2.2.2.2.2.2.2.1, hf.2.2.2.2.2.2.2.2⟩
      · simp only [result_t.returned.injEq, Prod.mk.injEq] at h
        exact absurd h.1.symm hne

/-- Witness of C4, amended: the bias descriptor of the sample, whose format is
`undef`, is untouched by the failing call. -/
theorem init_failure_frame_witness :
    init (sample_env false) .u8 .u8 sample_pd_f32_weights =
      .returned (.unimplemented, sample_pd_f32_weights_done) ∧
    sample_pd_f32_weights_done.bias_pd_ = sample_pd_f32_weights.bias_pd_ :=
  ⟨by decide,
    (init_failure_frame (sample_env false) .u8 .u8 sample_pd_f32_weights
      sample_pd_f32_weights_done .unimplemented (by decide)
      (by decide)).2.2.2.2.2.2 (by decide)⟩

/-- C5, as stated, fails: on the rank-6 sample with unspecified layouts and one
hyperbolic-tangent post-op, on a CPU engine in a build with assertions, `init`
stops at `assert(!"unsupported ndims format")` inside `set_default_params`
and returns no status, so the post-op is not rejected with `unimplemented`. -/
theorem init_single_post_op_rank6_counterexample :
    (sample_pd_6d_post_ops [sample_tanh]).attr_.post_ops_.len_ = 1 ∧
    (sample_pd_6d_post_ops [sample_tanh]).attr_.post_ops_.entry_0.eltwise.alg ≠
      .eltwise_relu ∧
    (sample_pd_6d_post_ops [sample_tanh]).engine_kind = .cpu ∧
    init (sample_env false) .u8 .u8 (sample_pd_6d_post_ops [sample_tanh]) =
      .assert_failed := by
  decide

/-- C5, amended: on a descriptor with exactly one post-op, `init` returns
`success` only if `entry_[0]` is an element-wise ReLU with negative slope
`alpha = 0`; a single post-op that is not such a ReLU is never accepted and,
under `asserts_hold`, is answered with `unimplemented`.  A descriptor without
post-ops on which `set_default_params` succeeds and every other conjunct of
`ok` holds is accepted. -/
theorem init_single_post_op (env : env_t) (src_type dst_type : data_type_t) (s : pd_t) :
    (s.attr_.post_ops_.len_ = 1 →
      (∀ s', init env src_type dst_type s = .returned (.success, s') →
        s.attr_.post_ops_.entry_0.kind = .eltwise ∧
        s.attr_.post_ops_.entry_0.eltwise.alg = .eltwise_relu ∧
        s.attr_.post_ops_.entry_0.eltwise.alpha = 0) ∧
      (¬ (s.attr_.post_ops_.entry_0.kind = .eltwise ∧
          s.attr_.post_ops_.entry_0.eltwise.alg = .eltwise_relu ∧
          s.attr_.post_ops_.entry_0.eltwise.alpha = 0) →
        (∀ s', init env src_type dst_type s ≠ .returned (.success, s')) ∧
        (asserts_hold env s →
          ∃ s1, init env src_type dst_type s = .returned (.unimplemented, s1)))) ∧
    (s.attr_.post_ops_.len_ = 0 →
      ∀ s1, set_default_params env s = .returned (.success, s1) →
        ¬ (env.ndebug = false ∧ s.engine_kind ≠ .cpu) →
        (s.desc_.prop_kind = .forward_training ∨ s.desc_.prop_kind = .forward_inference) →
        env.has_zero_dim_memory s1 = false →
        s.desc_.src_desc.data_type = src_type →
        s.desc_.dst_desc.data_type = dst_type →
        s.desc_.weights_desc.data_type = .s8 →
        (env.with_bias s.desc_ = true →
          s.desc_.bias_desc.data_type ∈ [data_type_t.f32, .s32, .s8, .u8]) →
        env.dense_gemm_consitency_check s1.src_pd_ s1.weights_pd_ s1.dst_pd_ = true →
        ∃ s', init env src_type dst_type s = .returned (.success, s')) := by
  have hrelu : s.attr_.post_ops_.entry_0.is_relu true false = true ↔
      (s.attr_.post_ops_.entry_0.kind = .eltwise ∧
        s.attr_.post_ops_.entry_0.eltwise.alg = .eltwise_relu ∧
        s.attr_.post_ops_.entry_0.eltwise.alpha = 0) := by
    simp [entry_t.is_relu, and_assoc]
  refine ⟨fun hlen => ⟨?_, ?_⟩, ?_⟩
  · intro s' hs
    obtain ⟨s1, hsdp, hc, _⟩ := init_success hs
    have hf := set_default_params_frame hsdp
    obtain ⟨_, _, _, _, _, _, _, h8, _⟩ := (init_checks_iff env src_type dst_type s1).1 hc
    rw [hf.2.2.1] at h8
    exact hrelu.1 (h8 (by rw [hlen]; decide))
  · intro hnot
    have hbad : ∀ s1, frame s s1 → init_checks env src_type dst_type s1 = false := by
      intro s1 hf
      apply init_checks_false_of
      rintro ⟨_, _, _, _, _, h8⟩
      rw [hf.2.2.1] at h8
      exact hnot (hrelu.1 (h8 (by rw [hlen]; decide)))
    exact ⟨init_ne_success_of_checks_fail hbad,
      fun ha => init_unimplemented_of_checks_fail ha hbad⟩
  · intro hlen s1 hsdp he h1 h2 h3 h4 h5 h6 h9
    have hf := set_default_params_frame hsdp
    refine ⟨_, init_accepts he hsdp ?_⟩
    rw [init_checks_iff, hf.2.1, hf.2.2.1]
    exact ⟨h1, h2, h3, h4, h5, h6, by rw [hlen]; decide, fun c => absurd hlen c, h9⟩

/-- Witness of C5, amended: the 2-D sample problem with one ReLU of slope zero is
accepted, so its post-op is such a ReLU. -/
theorem init_single_post_op_witness :
    (sample_pd_2d .u8 [sample_relu]).attr_.post_ops_.len_ = 1 ∧
    init (sample_env false) .u8 .u8 (sample_pd_2d .u8 [sample_relu]) =
      .returned (.success, sample_pd_2d_done .u8 [sample_relu] false
        [(key_t.key_iprod_int_dat_in_acc_dt, 32)]) ∧
    ((sample_pd_2d .u8 [sample_relu]).attr_.post_ops_.entry_0.kind = .eltwise ∧
      (sample_pd_2d .u8 [sample_relu]).attr_.post_ops_.entry_0.eltwise.alg = .eltwise_relu ∧
      (sample_pd_2d .u8 [sample_relu]).attr_.post_ops_.entry_0.eltwise.alpha = 0) :=
  ⟨by decide, by decide,
    ((init_single_post_op (sample_env false) .u8 .u8 (sample_pd_2d .u8 [sample_relu])).1
      (by decide)).1 (sample_pd_2d_done .u8 [sample_relu] false
        [(key_t.key_iprod_int_dat_in_acc_dt, 32)]) (by decide)⟩

/-- C6, as stated, fails: on the rank-6 sample with unspecified layouts and
weights of type `f32`, on a CPU engine in a build with assertions, `init`
stops at `assert(!"unsupported ndims format")` inside `set_default_params`
and returns no status, so the violation is not rejected with
`unimplemented`. -/
theorem init_data_types_rank6_counterexample :
    sample_pd_6d_f32_weights.desc_.weights_desc.data_type ≠ .s8 ∧
    sample_pd_6d_f32_weights.engine_kind = .cpu ∧
    init (sample_env false) .u8 .u8 sample_pd_6d_f32_weights = .assert_failed := by
  decide

/-- C6, amended: on every descriptor on which `init` returns `success`, the
source data type is `src_type`, the weights data type is `s8`, the destination
data type is `dst_type` and, when `with_bias()`, the bias data type is one of
`f32`, `s32`, `s8`, `u8`.  A descriptor that violates one of the four
conditions is never accepted and, under `asserts_hold`, is answered with
`unimplemented`.  When `with_bias()` is false the bias data type is not
constrained: whatever it is, a descriptor on which `set_default_params`
succeeds, no `assert` fails and every other conjunct of `ok` holds is
accepted. -/
theorem init_data_types (env : env_t) (src_type dst_type : data_type_t) (s : pd_t) :
    (∀ s', init env src_type dst_type s = .returned (.success, s') →
      s.desc_.src_desc.data_type = src_type ∧
      s.desc_.weights_desc.data_type = .s8 ∧
      s.desc_.dst_desc.data_type = dst_type ∧
      (env.with_bias s.desc_ = true →
        s.desc_.bias_desc.data_type ∈ [data_type_t.f32, .s32, .s8, .u8])) ∧
    ((s.desc_.src_desc.data_type ≠ src_type ∨
      s.desc_.weights_desc.data_type ≠ .s8 ∨
      s.desc_.dst_desc.data_type ≠ dst_type ∨
      (env.with_bias s.desc_ = true ∧
        s.desc_.bias_desc.data_type ∉ [data_type_t.f32, .s32, .s8, .u8])) →
      (∀ s', init env src_type dst_type s ≠ .returned (.success, s')) ∧
      (asserts_hold env s →
        ∃ s1, init env src_type dst_type s = .returned (.unimplemented, s1))) ∧
    (env.with_bias s.desc_ = false →
      ∀ s1, set_default_params env s = .returned (.success, s1) →
        ¬ (env.ndebug = false ∧ s.engine_kind ≠ .cpu) →
        (s.desc_.prop_kind = .forward_training ∨ s.desc_.prop_kind = .forward_inference) →
        env.has_zero_dim_memory s1 = false →
        s.desc_.src_desc.data_type = src_type →
        s.desc_.dst_desc.data_type = dst_type →
        s.desc_.weights_desc.data_type = .s8 →
        s.attr_.post_ops_.len_ ≤ 1 →
        (s.attr_.post_ops_.len_ ≠ 0 →
          s.attr_.post_ops_.entry_0.is_relu true false = true) →
        env.dense_gemm_consitency_check s1.src_pd_ s1.weights_pd_ s1.dst_pd_ = true →
        init env src_type dst_type s = .returned (.success,
          init_scratchpad env { s1 with dst_is_acc_ := one_of dst_type [.s32, .f32] })) := by
  refine ⟨?_, ?_, ?_⟩
  · intro s' hs
    obtain ⟨s1, hsdp, hc, _⟩ := init_success hs
    have hf := set_default_params_frame hsdp
    obtain ⟨_, _, h3, h4, h5, h6, _, _, _⟩ := (init_checks_iff env src_type dst_type s1).1 hc
    rw [hf.2.1] at h3 h4 h5 h6
    exact ⟨h3, h5, h4, h6⟩
  · intro hv
    have hbad : ∀ s1, frame s s1 → init_checks env src_type dst_type s1 = false := by
      intro s1 hf
      apply init_checks_false_of
      rintro ⟨h3, h4, h5, h6, _, _⟩
      rw [hf.2.1] at h3 h4 h5 h6
      rcases hv with hv | hv | hv | ⟨hb, hv⟩
      · exact hv h3
      · exact hv h5
      · exact hv h4
      · exact hv (h6 hb)
    exact ⟨init_ne_success_of_checks_fail hbad,
      fun ha => init_unimplemented_of_checks_fail ha hbad⟩
  · intro hb s1 hsdp he h1 h2 h3 h4 h5 h7 h8 h9
    have hf := set_default_params_frame hsdp
    refine init_accepts he hsdp ?_
    rw [init_checks_iff, hf.2.1, hf.2.2.1]
    refine ⟨h1, h2, h3, h4, h5, ?_, h7, h8, h9⟩
    intro hc
    rw [hb] at hc
    exact absurd hc (by simp)

/-- Witness of C6, amended: the 2-D sample problem with `f32` weights violates
the condition on the weights and is answered with `unimplemented`; the sample
without bias whose bias data type is `s16`, a type outside the list, is
accepted. -/
theorem init_data_types_witness :
    (sample_pd_f32_weights.desc_.weights_desc.data_type ≠ .s8 ∧
      asserts_hold (sample_env false) sample_pd_f32_weights ∧
      ∃ s1, init (sample_env false) .u8 .u8 sample_pd_f32_weights
        = .returned (.unimplemented, s1)) ∧
    ((sample_env false).with_bias sample_pd_2d_s16_bias.desc_ = false ∧
      sample_pd_2d_s16_bias.desc_.bias_desc.data_type = .s16 ∧
      init (sample_env false) .u8 .u8 sample_pd_2d_s16_bias =
        .returned (.success, sample_pd_2d_s16_bias_done)) :=
  ⟨⟨by decide, by decide,
      ((init_data_types (sample_env false) .u8 .u8 sample_pd_f32_weights).2.1
        (Or.inr (Or.inl (by decide)))).2 (by decide)⟩,
    ⟨by decide, by decide,
      (init_data_types (sample_env false) .u8 .u8 sample_pd_2d_s16_bias).2.2 (by decide)
        { sample_pd_2d_s16_bias with
          src_pd_ := { desc_ := sample_md [2, 3] .u8 .nc }
          weights_pd_ := { desc_ := sample_md [4, 3] .s8 .io }
          dst_pd_ := { desc_ := sample_md [2, 4] .u8 .nc } }
        (by decide) (by decide) (by decide) (by decide) (by decide) (by decide) (by decide)
        (by decide) (by decide) (by decide)⟩⟩

/-- C7: for a rank `r` in 2..5 and a descriptor whose source, destination and
weights layouts are `any` (and whose bias layout is `any` when `with_bias()`),
if the calls of `set_format` that `set_default_params` makes succeed (and a
successful `set_format` has stored the tag), `set_default_params` returns
`success` and leaves: the source in `nc`, `nwc`, `nhwc`, `ndhwc` for rank 2,
3, 4, 5; the weights in `io`, `wio`, `hwio`, `dhwio`; the destination, the 2-D
tensor `[MB, OC]`, in `nc`; the bias, when present, in `x`. -/
theorem set_default_params_defaults (env : env_t) (s : pd_t) (hst : set_format_stores env)
    (hr : 2 ≤ env.ndims s.desc_ ∧ env.ndims s.desc_ ≤ 5)
    (hsrc : s.src_pd_.desc_.format = .any) (hdst : s.dst_pd_.desc_.format = .any)
    (hwei : s.weights_pd_.desc_.format = .any)
    (hbias : env.with_bias s.desc_ = true → s.bias_pd_.desc_.format = .any)
    (h1 : (env.set_format s.src_pd_ (spec_src_layout (env.ndims s.desc_))).1 = .success)
    (h2 : (env.set_format s.dst_pd_ .nc).1 = .success)
    (h3 : (env.set_format s.weights_pd_ (spec_weights_layout (env.ndims s.desc_))).1 = .success)
    (h4 : s.bias_pd_.desc_.format = .any → (env.set_format s.bias_pd_ .x).1 = .success) :
    ∃ s1, set_default_params env s = .returned (.success, s1) ∧
      s1.src_pd_.desc_.format = spec_src_layout (env.ndims s.desc_) ∧
      s1.dst_pd_.desc_.format = .nc ∧
      s1.weights_pd_.desc_.format = spec_weights_layout (env.ndims s.desc_) ∧
      (env.with_bias s.desc_ = true → s1.bias_pd_.desc_.format = .x) := by
  have d1 : default_src env s = check_set_src env s (spec_src_layout (env.ndims s.desc_)) := by
    obtain ⟨ha, hb⟩ := hr
    have hc : env.ndims s.desc_ = 2 ∨ env.ndims s.desc_ = 3 ∨ env.ndims s.desc_ = 4 ∨
        env.ndims s.desc_ = 5 := by omega
    rcases hc with hc | hc | hc | hc <;> simp [default_src, hsrc, hc, spec_src_layout]
  have d3 : ∀ a : pd_t, a.desc_ = s.desc_ → a.weights_pd_ = s.weights_pd_ →
      default_weights env a =
        check_set_weights env a (spec_weights_layout (env.ndims s.desc_)) := by
    intro a ha hw
    obtain ⟨hx, hy⟩ := hr
    have hc : env.ndims s.desc_ = 2 ∨ env.ndims s.desc_ = 3 ∨ env.ndims s.desc_ = 4 ∨
        env.ndims s.desc_ = 5 := by omega
    rcases hc with hc | hc | hc | hc <;>
      simp [default_weights, ha, hw, hwei, hc, spec_weights_layout]
  have e1 : default_src env s = .next { s with
      src_pd_ := (env.set_format s.src_pd_ (spec_src_layout (env.ndims s.desc_))).2 } := by
    rw [d1]; simp [check_set_src, CHECK, h1]
  have e2 : default_dst env { s with
      src_pd_ := (env.set_format s.src_pd_ (spec_src_layout (env.ndims s.desc_))).2 } =
      .next { s with
        src_pd_ := (env.set_format s.src_pd_ (spec_src_layout (env.ndims s.desc_))).2
        dst_pd_ := (env.set_format s.dst_pd_ .nc).2 } := by
    simp [default_dst, hdst, check_set_dst, CHECK, h2]
  have e3 : default_weights env { s with
        src_pd_ := (env.set_format s.src_pd_ (spec_src_layout (env.ndims s.desc_))).2
        dst_pd_ := (env.set_format s.dst_pd_ .nc).2 } =
      .next { s with
        src_pd_ := (env.set_format s.src_pd_ (spec_src_layout (env.ndims s.desc_))).2
        dst_pd_ := (env.set_format s.dst_pd_ .nc).2
        weights_pd_ :=
          (env.set_format s.weights_pd_ (spec_weights_layout (env.ndims s.desc_))).2 } := by
    have e := d3 { s with
        src_pd_ := (env.set_format s.src_pd_ (spec_src_layout (env.ndims s.desc_))).2
        dst_pd_ := (env.set_format s.dst_pd_ .nc).2 } rfl rfl
    rw [e]; simp [check_set_weights, CHECK, h3]
  by_cases hb : s.bias_pd_.desc_.format = .any
  · have e4 : default_bias env { s with
        src_pd_ := (env.set_format s.src_pd_ (spec_src_layout (env.ndims s.desc_))).2
        dst_pd_ := (env.set_format s.dst_pd_ .nc).2
        weights_pd_ :=
          (env.set_format s.weights_pd_ (spec_weights_layout (env.ndims s.desc_))).2 } =
      .next { s with
        src_pd_ := (env.set_format s.src_pd_ (spec_src_layout (env.ndims s.desc_))).2
        dst_pd_ := (env.set_format s.dst_pd_ .nc).2
        weights_pd_ :=
          (env.set_format s.weights_pd_ (spec_weights_layout (env.ndims s.desc_))).2
        bias_pd_ := (env.set_format s.bias_pd_ .x).2 } := by
      simp [default_bias, hb, check_set_bias, CHECK, h4 hb]
    have hfl : set_default_params env s = .returned (.success, { s with
        src_pd_ := (env.set_format s.src_pd_ (spec_src_layout (env.ndims s.desc_))).2
        dst_pd_ := (env.set_format s.dst_pd_ .nc).2
        weights_pd_ :=
          (env.set_format s.weights_pd_ (spec_weights_layout (env.ndims s.desc_))).2
        bias_pd_ := (env.set_format s.bias_pd_ .x).2 }) := by
      simp only [set_default_params, set_default_params_flow, flow_t.andThen, e1, e2, e3, e4]
    exact ⟨_, hfl, hst _ _ h1, hst _ _ h2, hst _ _ h3, fun _ => hst _ _ (h4 hb)⟩
  · have hnb : ¬ env.with_bias s.desc_ = true := fun c => hb (hbias c)
    have e4 : default_bias env { s with
        src_pd_ := (env.set_format s.src_pd_ (spec_src_layout (env.ndims s.desc_))).2
        dst_pd_ := (env.set_format s.dst_pd_ .nc).2
        weights_pd_ :=
          (env.set_format s.weights_pd_ (spec_weights_layout (env.ndims s.desc_))).2 } =
      .next { s with
        src_pd_ := (env.set_format s.src_pd_ (spec_src_layout (env.ndims s.desc_))).2
        dst_pd_ := (env.set_format s.dst_pd_ .nc).2
        weights_pd_ :=
          (env.set_format s.weights_pd_ (spec_weights_layout (env.ndims s.desc_))).2 } := by
      simp [default_bias, hb]
    have hfl : set_default_params env s = .returned (.success, { s with
        src_pd_ := (env.set_format s.src_pd_ (spec_src_layout (env.ndims s.desc_))).2
        dst_pd_ := (env.set_format s.dst_pd_ .nc).2
        weights_pd_ :=
          (env.set_format s.weights_pd_ (spec_weights_layout (env.ndims s.desc_))).2 }) := by
      simp only [set_default_params, set_default_params_flow, flow_t.andThen, e1, e2, e3, e4]
    exact ⟨_, hfl, hst _ _ h1, hst _ _ h2, hst _ _ h3, fun c => absurd c hnb⟩

/-- Witness of C7: the 2-D sample problem, rank 2, ends in `nc`, `nc`, `io`. -/
theorem set_default_params_defaults_witness :
    ∃ s1, set_default_params (sample_env false) (sample_pd_2d .u8 []) =
        .returned (.success, s1) ∧
      s1.src_pd_.desc_.format = .nc ∧
      s1.dst_pd_.desc_.format = .nc ∧
      s1.weights_pd_.desc_.format = .io ∧
      ((sample_env false).with_bias (sample_pd_2d .u8 []).desc_ = true →
        s1.bias_pd_.desc_.format = .x) :=
  set_default_params_defaults (sample_env false) (sample_pd_2d .u8 [])
    (sample_set_format_stores false) (by decide) rfl rfl rfl (by decide) rfl rfl rfl
    (fun _ => rfl)

/-- C8, as stated, fails: on a CPU engine, in a build with assertions, `init`
on the rank-6 sample with unspecified layouts reaches
`assert(!"unsupported ndims format")` and returns no status. -/
theorem init_rank6_assert_counterexample :
    sample_pd_6d.engine_kind = .cpu ∧
    (sample_env false).ndims sample_pd_6d.desc_ = 6 ∧
    init (sample_env false) .u8 .u8 sample_pd_6d = .assert_failed := by
  decide

/-- C8, amended: under `asserts_hold` (the build defines `NDEBUG`, or the
engine is a CPU engine and the rank is one of 0, 2, 3, 4, 5 or the source and
weights layouts are both specified) `init` does not stop at an `assert` and
returns `success` or `unimplemented`; a status other than `success` returned
by `set_default_params` is reported as `unimplemented`. -/
theorem init_total (env : env_t) (src_type dst_type : data_type_t) (s : pd_t)
    (h : asserts_hold env s) :
    ((∃ s', init env src_type dst_type s = .returned (.success, s')) ∨
      (∃ s', init env src_type dst_type s = .returned (.unimplemented, s'))) ∧
    init env src_type dst_type s ≠ .assert_failed ∧
    (∀ st s1, set_default_params env s = .returned (st, s1) → st ≠ .success →
      init env src_type dst_type s = .returned (.unimplemented, s1)) := by
  have he := asserts_hold_engine h
  refine ⟨?_, init_runs h, ?_⟩
  · obtain ⟨st, s1, hsdp⟩ := set_default_params_returns h
    by_cases hst : st = .success
    · subst hst
      by_cases hc : init_checks env src_type dst_type s1 = true
      · exact Or.inl ⟨_, init_accepts he hsdp hc⟩
      · exact Or.inr ⟨_, init_unimplemented he hsdp (Or.inr (by simpa using hc))⟩
    · exact Or.inr ⟨_, init_unimplemented he hsdp (Or.inl hst)⟩
  · intro st s1 hsdp hst
    exact init_unimplemented he hsdp (Or.inl hst)

/-- Witness of C8, amended: the 2-D sample problem. -/
theorem init_total_witness :
    asserts_hold (sample_env false) (sample_pd_2d .s32 []) ∧
    init (sample_env false) .u8 .s32 (sample_pd_2d .s32 []) ≠ .assert_failed :=
  ⟨by decide, (init_total (sample_env false) .u8 .s32 (sample_pd_2d .s32 []) (by decide)).2.1⟩

/-- C10: `set_default_params` returns when the build defines `NDEBUG`, the rank
is one of 0, 2, 3, 4, 5, or the source and weights layouts are both specified.
Whenever it returns, each of the four memory formats that was not `any` on
entry has the same value on exit; and if it returned `success`, with a
`set_format` that stores the tag on success, a second call returns `success`
and leaves the state as the first call left it. -/
theorem set_default_params_only_unspecified (env : env_t) (s : pd_t) :
    ((env.ndebug = true ∨ handled_ndims (env.ndims s.desc_) ∨
        (s.src_pd_.desc_.format ≠ .any ∧ s.weights_pd_.desc_.format ≠ .any)) →
      ∃ st s1, set_default_params env s = .returned (st, s1)) ∧
    (∀ st s1, set_default_params env s = .returned (st, s1) →
      (s.src_pd_.desc_.format ≠ .any →
        s1.src_pd_.desc_.format = s.src_pd_.desc_.format) ∧
      (s.dst_pd_.desc_.format ≠ .any →
        s1.dst_pd_.desc_.format = s.dst_pd_.desc_.format) ∧
      (s.weights_pd_.desc_.format ≠ .any →
        s1.weights_pd_.desc_.format = s.weights_pd_.desc_.format) ∧
      (s.bias_pd_.desc_.format ≠ .any →
        s1.bias_pd_.desc_.format = s.bias_pd_.desc_.format) ∧
      (set_format_stores env → st = .success →
        set_default_params env s1 = .returned (.success, s1))) := by
  refine ⟨?_, ?_⟩
  · intro h
    have hr := set_default_params_flow_runs env s h
    unfold set_default_params
    cases hfl : set_default_params_flow env s with
    | next a => exact ⟨_, _, rfl⟩
    | ret st a => exact ⟨_, _, rfl⟩
    | stop => rw [hfl] at hr; exact absurd hr (by simp [flow_t.runs])
  · intro st s1 h
    have hf := set_default_params_frame h
    refine ⟨fun c => by rw [hf.2.2.2.2.2.1 c], fun c => by rw [hf.2.2.2.2.2.2.1 c],
      fun c => by rw [hf.2.2.2.2.2.2.2.1 c], fun c => by rw [hf.2.2.2.2.2.2.2.2 c], ?_⟩
    intro hst hs
    subst hs
    have hn := set_default_params_success_iff.1 h
    have hsd := flow_next_settled hst s
    rw [hn] at hsd
    exact set_default_params_success_iff.2 (settled_flow hsd)

/-- Witness of C10: a second call on the state the first call left for the 2-D
sample problem. -/
theorem set_default_params_only_unspecified_witness :
    set_default_params (sample_env false) (sample_pd_2d .u8 []) =
      .returned (.success, sample_pd_2d_done .u8 [] false []) ∧
    set_default_params (sample_env false) (sample_pd_2d_done .u8 [] false []) =
      .returned (.success, sample_pd_2d_done .u8 [] false []) :=
  ⟨by decide,
    ((set_default_params_only_unspecified (sample_env false) (sample_pd_2d .u8 [])).2
      .success (sample_pd_2d_done .u8 [] false []) (by decide)).2.2.2.2
      (sample_set_format_stores false) rfl⟩

/-- C9: chunk-invariance of the post-processing routine.  For every
configuration of the routine with `OC > 0`, every arithmetic, every
accumulator (a buffer of its own or the destination itself), bias and scale
content, every initial destination buffer and every partition of
`[0, MB * OC)` into contiguous chunks, one invocation per chunk, in any order,
leaves the same destination buffer as the single invocation with `start = 0`
and `end = MB * OC`.  Element `i` of a chunk that starts at `start` is
computed for the channel `(oc_offset + i) mod OC` with
`oc_offset = start mod OC`, which is the channel `(start + i) mod OC` of the
row-major index. -/
theorem pp_kernel_chunk_invariance {F D B : Type} (k : pp_kernel_t) (ops : arith_t F D B)
    (acc : acc_arg_t D) (bias : Nat → B) (scales : Nat → F) (nslope : F) (dst : Nat → D)
    (MB : Nat) (chunks : List (Nat × Nat)) (_hOC : 0 < k.OC_)
    (hp : is_partition (MB * k.OC_) chunks) :
    k.call_chunks ops acc bias scales nslope chunks dst =
      k.call ops dst acc bias scales nslope 0 (MB * k.OC_) ∧
    (∀ c ∈ chunks, ∀ i, c.1 + i < c.2 →
      k.call ops dst acc bias scales nslope c.1 c.2 (c.1 + i) =
        k.element ops
          { dst := c.1, acc := c.1, bias := bias, scales := scales, nslope := nslope,
            len := c.2 - c.1, oc_offset := c.1 % k.OC_ }
          (acc.read dst (c.1 + i)) ((c.1 % k.OC_ + i) % k.OC_) ∧
      (c.1 % k.OC_ + i) % k.OC_ = (c.1 + i) % k.OC_) := by
  obtain ⟨hin, hpw, hcov⟩ := hp
  refine ⟨?_, ?_⟩
  · funext j
    rw [call_chunks_apply k ops acc bias scales nslope chunks dst (fun c hc => (hin c hc).1)
      hpw j, call_apply k ops dst acc bias scales nslope 0 (MB * k.OC_) (Nat.zero_le _) j]
    by_cases hj : j < MB * k.OC_
    · have h1 : ∃ c ∈ chunks, in_chunk c j := hcov j hj
      have h2 : in_chunk (0, MB * k.OC_) j := ⟨Nat.zero_le _, hj⟩
      rw [if_pos h1, if_pos h2]
    · have h1 : ¬ ∃ c ∈ chunks, in_chunk c j := by
        rintro ⟨c, hc, hcj⟩
        have := (hin c hc).2
        unfold in_chunk at hcj
        omega
      have h2 : ¬ in_chunk (0, MB * k.OC_) j := fun h => hj h.2
      rw [if_neg h1, if_neg h2]
  · intro c _ i hi
    refine ⟨?_, ?_⟩
    · unfold pp_kernel_t.call pp_kernel_t.ker
      rw [ker_from_apply k ops acc _ rfl]
      have h : c.1 + 0 ≤ c.1 + i ∧ c.1 + i < c.1 + 0 + (c.2 - c.1) := by omega
      simp only [h, and_self, ↓reduceIte, Nat.add_sub_cancel_left]
    · rw [Nat.add_mod, Nat.mod_mod, ← Nat.add_mod]

/-- Witness of C9: `MB = 2`, `OC = 3`, the chunks `[4, 6)`, `[0, 1)`, `[1, 4)`
processed in place, and the values they leave; and the second example of the
specification, accumulator `[5, -3, 100]` with ReLU, in the chunks `[0, 2)`,
`[2, 3)`. -/
theorem pp_kernel_chunk_invariance_witness :
    is_partition (2 * sample_kernel.OC_) [(4, 6), (0, 1), (1, 4)] ∧
    (List.range 6).map (sample_kernel.call_chunks sample_arith (.dst_itself id)
      (fun _ => 1) (fun c => [1, 2, 3].getD c 0) 0 [(4, 6), (0, 1), (1, 4)] sample_acc)
      = [6, 0, 303, 0, 10, 3] ∧
    (List.range 3).map (sample_kernel_relu.call_chunks sample_arith (.own sample_acc)
      (fun _ => 0) (fun _ => 1) 0 [(0, 2), (2, 3)] (fun _ => 0))
      = [5, 0, 100] ∧
    sample_kernel.call_chunks sample_arith (.dst_itself id)
      (fun _ => 1) (fun c => [1, 2, 3].getD c 0) 0 [(4, 6), (0, 1), (1, 4)] sample_acc =
    sample_kernel.call sample_arith sample_acc (.dst_itself id)
      (fun _ => 1) (fun c => [1, 2, 3].getD c 0) 0 0 (2 * sample_kernel.OC_) :=
  ⟨by decide, by decide, by decide,
    (pp_kernel_chunk_invariance sample_kernel sample_arith (.dst_itself id)
      (fun _ => 1) (fun c => [1, 2, 3].getD c 0) 0 sample_acc 2 [(4, 6), (0, 1), (1, 4)]
      (by decide) (by decide)).1⟩

end mkldnn
